import Mathlib

/-!
The slide rotator of `src/js/gallery.js`, the form validation and device detection
of `src/js/main.js`, and the mobile menu of `src/js/navigation.js`.

A shallow embedding of the wireframe gallery (`initWireframeGallery` and the
functions nested in it), of the swipe detector `addTouchSupport`, of
`validateField`, `validateForm` and `getDeviceType`, and of the three mobile menu
functions.

Conventions of the embedding.

* JavaScript numbers that hold slide indices and slide counts are integers far
  below `2^53`, so they are modelled by `Int`; the operator `%` is the truncated
  remainder `Int.tmod` (the result takes the sign of the dividend).
* The closure variables of `initWireframeGallery` (`currentSlide`, `totalSlides`)
  and the part of the document the closure reads and writes (the captured
  `slides`, the buttons it appends, the elements matched by `.gallery-dot`) are
  gathered in the record `Rotator`; every nested function is a function on it.
* Event listeners are defunctionalised: a listener is a value of `Handler`, and
  `Handler.run` is what calling it does.
* Strings that are matched against a pattern are lists of characters. A character is
  a code point where JavaScript has UTF-16 code units; the classes of the two patterns
  treat both halves of a surrogate pair alike, so the verdicts agree.
-/

namespace Gallery

/-! ## Configuration -/

/-- Fields of `galleryConfig` that the code reads or that the spec mentions. -/
structure GalleryConfig where
  autoPlay : Nat
  prevNextButtons : Bool
  pageDots : Bool
  wrapAround : Bool
  pauseAutoPlayOnHover : Bool
  deriving DecidableEq, Repr

/-- The constant `galleryConfig` (gallery.js, lines 6-22). -/
def galleryConfig : GalleryConfig :=
  { autoPlay := 4000
    prevNextButtons := true
    pageDots := true
    wrapAround := true
    pauseAutoPlayOnHover := false }

/-! ## Document model -/

/-- JavaScript `a % b` on integers: `Int.tmod`, truncated toward zero. -/
def jsRem (a b : Int) : Int := Int.tmod a b

/-- The host predicate `Number.isSafeInteger` on an integer: its magnitude is below
`2^53`, so that it and its neighbours are exact as JavaScript numbers and `+ 1`, `- 1`
and `%` on it are the integer operations. -/
def isSafeInteger (k : Int) : Bool := decide (-(2 : Int) ^ 53 < k ∧ k < (2 : Int) ^ 53)

/-- A registered listener: which nested function of `initWireframeGallery` it calls.
`goToSlide index` is the arrow function `() => goToSlide(index)`. -/
inductive Handler where
  | prevSlide
  | nextSlide
  | goToSlide (index : Int)
  deriving DecidableEq, Repr

/-- A `button` element: its class name, its text, whether its class list holds
`active`, and the listeners registered on it for `click`. -/
structure Button where
  className : String
  innerHTML : String
  active : Bool
  click : List Handler
  deriving DecidableEq, Repr

/-- The element matched by `.wireframe-gallery`, as far as the rotator sees it:
`slides` is the `style.display` of each `.gallery-slide` in document order,
`controls` the buttons appended directly to the container, and `dots` every
element matched by `.gallery-dot` inside the container, in document order
(the wrapping `div.gallery-dots` itself carries no state and is left out). -/
structure GalleryElement where
  slides : List String
  controls : List Button
  dots : List Button
  deriving DecidableEq, Repr

/-- The closure of `initWireframeGallery` once it is past its guards: the two
closure variables and the element it works on. -/
structure Rotator where
  currentSlide : Int
  totalSlides : Int
  galleryElement : GalleryElement
  deriving DecidableEq, Repr

/-! ## The nested functions of `initWireframeGallery` -/

/-- The function `updateDots` (lines 108-113): re-query `.gallery-dot` and set the class
`active` on exactly the dots whose position equals `currentSlide`. -/
def updateDots (r : Rotator) : Rotator :=
  { r with
    galleryElement :=
      { r.galleryElement with
        dots := r.galleryElement.dots.mapIdx fun index dot =>
          { dot with active := decide ((index : Int) = r.currentSlide) } } }

/-- The function `updateGalleryDisplay` (lines 69-75): set `style.display` of every
captured slide, then `updateDots`. -/
def updateGalleryDisplay (r : Rotator) : Rotator :=
  updateDots
    { r with
      galleryElement :=
        { r.galleryElement with
          slides := r.galleryElement.slides.mapIdx fun index _ =>
            if (index : Int) = r.currentSlide then "block" else "none" } }

/-- The function `nextSlide` (lines 54-57). The arithmetic is that of the integers; it
is the arithmetic of the code as long as `currentSlide` is a safe integer, which every
state in range is. -/
def nextSlide (r : Rotator) : Rotator :=
  updateGalleryDisplay
    { r with currentSlide := jsRem (r.currentSlide + 1) r.totalSlides }

/-- The function `prevSlide` (lines 59-62). The arithmetic is that of the integers, as
for `nextSlide`. -/
def prevSlide (r : Rotator) : Rotator :=
  updateGalleryDisplay
    { r with currentSlide := jsRem (r.currentSlide - 1 + r.totalSlides) r.totalSlides }

/-- The function `goToSlide` (lines 64-67). -/
def goToSlide (index : Int) (r : Rotator) : Rotator :=
  updateGalleryDisplay { r with currentSlide := index }

/-- Calling a registered listener. -/
def Handler.run : Handler → Rotator → Rotator
  | .prevSlide => Gallery.prevSlide
  | .nextSlide => Gallery.nextSlide
  | .goToSlide index => Gallery.goToSlide index

/-- Calling a sequence of listeners one after the other, first to last. -/
def Handler.runAll (hs : List Handler) (r : Rotator) : Rotator :=
  hs.foldl (fun acc h => h.run acc) r

/-- A listener that is one of the two directional operations. -/
def Handler.isDirectional : Handler → Bool
  | .prevSlide => true
  | .nextSlide => true
  | .goToSlide _ => false

/-- The range invariant of the spec: `currentSlide` is a valid slide position. -/
def Rotator.InRange (r : Rotator) : Prop :=
  0 ≤ r.currentSlide ∧ r.currentSlide < r.totalSlides

instance (r : Rotator) : Decidable r.InRange := by
  unfold Rotator.InRange; infer_instance

/-- The function `createGalleryNavigation` (lines 77-106), called with the container
and the captured slides of the closure: build the two directional buttons and
one dot per slide, append them to the container, then `updateGalleryDisplay`. -/
def createGalleryNavigation (r : Rotator) : Rotator :=
  let prevBtn : Button :=
    { className := "gallery-prev", innerHTML := "‹", active := false,
      click := [Handler.prevSlide] }
  let nextBtn : Button :=
    { className := "gallery-next", innerHTML := "›", active := false,
      click := [Handler.nextSlide] }
  let dotsContainer : List Button :=
    r.galleryElement.slides.mapIdx fun index _ =>
      { className := "gallery-dot", innerHTML := "", active := false,
        click := [Handler.goToSlide index] }
  updateGalleryDisplay
    { r with
      galleryElement :=
        { r.galleryElement with
          controls := r.galleryElement.controls ++ [prevBtn, nextBtn]
          dots := r.galleryElement.dots ++ dotsContainer } }

/-- The display shows position `k` and nothing else: exactly one slide has
`display` equal to `block` and it is the slide at `k`, every other slide has `none`;
exactly one dot carries `active` and it is the dot at `k`. -/
def GalleryElement.ShowsOnly (g : GalleryElement) (k : Nat) : Prop :=
  g.slides.count "block" = 1
  ∧ g.slides[k]? = some "block"
  ∧ (∀ i, i < g.slides.length → i ≠ k → g.slides[i]? = some "none")
  ∧ g.dots.countP (fun d => d.active) = 1
  ∧ g.dots[k]?.map (fun d => d.active) = some true
  ∧ (∀ i, i < g.dots.length → i ≠ k → g.dots[i]?.map (fun d => d.active) = some false)

/-- A sample state used to instantiate the theorems: three slides, three generated
dots, the display still as the markup left it, `currentSlide` at 1. -/
def sampleRotator : Rotator :=
  { currentSlide := 1
    totalSlides := 3
    galleryElement :=
      { slides := ["", "", ""]
        controls := []
        dots :=
          [{ className := "gallery-dot", innerHTML := "", active := true,
             click := [Handler.goToSlide 0] },
           { className := "gallery-dot", innerHTML := "", active := false,
             click := [Handler.goToSlide 1] },
           { className := "gallery-dot", innerHTML := "", active := false,
             click := [Handler.goToSlide 2] }] } }

/-- A sample container used to instantiate the theorems: three slides and nothing
else. -/
def sampleGallery : GalleryElement :=
  { slides := ["", "", ""], controls := [], dots := [] }

/-- A sample container whose markup already holds one `.gallery-dot` element of its
own, with no listener, next to two slides. -/
def strayGallery : GalleryElement :=
  { slides := ["", ""], controls := []
    dots := [Button.mk "gallery-dot" "" false []] }

/-- The closure that `createGalleryNavigation` leaves on `strayGallery`: the query for
`.gallery-dot` finds the markup's dot first, then the two generated ones. -/
def strayRotator : Rotator :=
  createGalleryNavigation { currentSlide := 0, totalSlides := 2, galleryElement := strayGallery }

/-! ## Initialisation and the timer service -/

/-- A registration made with `setInterval`: the delay, the time that has passed
since the registration or the last firing, and the callback (`() => nextSlide()` is
`Handler.nextSlide`). -/
structure Interval where
  delay : Nat
  elapsed : Nat
  callback : Handler
  deriving DecidableEq, Repr

/-- What `initWireframeGallery` leaves behind for `.wireframe-gallery`. -/
inductive GallerySlot where
  -- the query returned null
  | missing
  -- the element exists and no closure holds on to it: nothing was wired
  | idle (galleryElement : GalleryElement)
  -- the element is driven by a live closure
  | live (r : Rotator)
  deriving DecidableEq, Repr

/-- The page after `initWireframeGallery`: the gallery and the intervals the
function registered. -/
structure Page where
  gallery : GallerySlot
  intervals : List Interval
  deriving DecidableEq, Repr

/-- The function `initWireframeGallery` (lines 32-114). Its argument is the result of
`document.querySelector('.wireframe-gallery')`. The test `if (galleryConfig.autoPlay)`
is JavaScript truthiness of a number: non-zero. -/
def initWireframeGallery (galleryElement : Option GalleryElement) : Page :=
  match galleryElement with
  | none => { gallery := .missing, intervals := [] }
  | some galleryElement =>
    let currentSlide : Int := 0
    let totalSlides : Int := galleryElement.slides.length
    if totalSlides ≤ 1 then { gallery := .idle galleryElement, intervals := [] }
    else
      let r := createGalleryNavigation
        { currentSlide := currentSlide, totalSlides := totalSlides,
          galleryElement := galleryElement }
      { gallery := .live r
        intervals :=
          if galleryConfig.autoPlay ≠ 0 then
            [{ delay := galleryConfig.autoPlay, elapsed := 0,
               callback := Handler.nextSlide }]
          else [] }

/-- Run listeners on the gallery: they act on the live closure, if there is one. -/
def GallerySlot.runAll (hs : List Handler) : GallerySlot → GallerySlot
  | .live r => .live (Handler.runAll hs r)
  | g => g

/-- An interval is due when one more time unit completes its delay. -/
def Interval.due (i : Interval) : Bool := decide (i.delay ≤ i.elapsed + 1)

/-- One time unit passes for an interval: it restarts when due, else ages. -/
def Interval.step (i : Interval) : Interval :=
  if i.due then { i with elapsed := 0 } else { i with elapsed := i.elapsed + 1 }

/-- One time unit passes on the page with no other event: every interval that
becomes due fires its callback once, in registration order. -/
def Page.tick (p : Page) : Page :=
  { gallery := p.gallery.runAll ((p.intervals.filter Interval.due).map Interval.callback)
    intervals := p.intervals.map Interval.step }

/-- A span of `t` time units passes on the page with no other event. -/
def Page.elapse (t : Nat) (p : Page) : Page := Page.tick^[t] p

/-- Clicking a button: its `click` listeners run in registration order. -/
def Page.click (b : Button) (p : Page) : Page :=
  { p with gallery := p.gallery.runAll b.click }

/-! ## The swipe detector `addTouchSupport` -/

/-- The two callbacks handed to `addTouchSupport`. -/
inductive SwipeCallback where
  | onSwipeLeft
  | onSwipeRight
  deriving DecidableEq, Repr

/-- The closure variables of `addTouchSupport` (lines 223-226). Page coordinates are
taken to be integers. -/
structure TouchState where
  startX : Int
  startY : Int
  distX : Int
  distY : Int
  deriving DecidableEq, Repr

/-- The constant `threshold` (line 227). -/
def threshold : Int := 150

/-- The constant `restraint` (line 228). -/
def restraint : Int := 100

/-- The host function `Math.abs` on integers. -/
def mathAbs (x : Int) : Int := if x < 0 then -x else x

/-- The function `addTouchSupport` up to its listener registrations: the initial
closure variables. -/
def addTouchSupport : TouchState :=
  { startX := 0, startY := 0, distX := 0, distY := 0 }

/-- The `touchstart` listener (lines 230-233); `pageX`, `pageY` are those of
`e.changedTouches[0]`. -/
def touchstart (pageX pageY : Int) (s : TouchState) : TouchState :=
  { s with startX := pageX, startY := pageY }

/-- The `touchend` listener (lines 235-246): the new closure variables and the
callbacks it invoked, in order. -/
def touchend (pageX pageY : Int) (s : TouchState) : TouchState × List SwipeCallback :=
  let distX := pageX - s.startX
  let distY := pageY - s.startY
  ({ s with distX := distX, distY := distY },
    if mathAbs distX ≥ threshold ∧ mathAbs distY ≤ restraint then
      if distX > 0 then [SwipeCallback.onSwipeRight] else [SwipeCallback.onSwipeLeft]
    else [])

/-- A whole gesture on a fresh detector: a touch start at `(startX, startY)` followed
by a touch end at `(endX, endY)`; the result is the list of callbacks invoked. -/
def swipe (startX startY endX endY : Int) : List SwipeCallback :=
  (touchend endX endY (touchstart startX startY addTouchSupport)).2

/-! ## Input events on the initialised page -/

/-- An input the page can receive after `initWireframeGallery`: a click on the button
at a position of `controls` or of `dots`, a touch start or touch end on the gallery
at page coordinates, or a span of time passing. -/
inductive Event where
  | clickControl (i : Nat)
  | clickDot (i : Nat)
  | touchstart (pageX pageY : Int)
  | touchend (pageX pageY : Int)
  | wait (t : Nat)
  deriving DecidableEq, Repr

/-- The listeners that run when an element of the gallery receives a click: those of
the button at that position, if the closure is live and the position exists. -/
def GallerySlot.clickListeners (pick : GalleryElement → List Button) (i : Nat) :
    GallerySlot → List Handler
  | .live r =>
    match (pick r.galleryElement)[i]? with
    | some b => b.click
    | none => []
  | _ => []

/-- Dispatch of one input. The only `addEventListener` calls reachable from
`initWireframeGallery` are the three `click` registrations of
`createGalleryNavigation` (lines 82, 87, 96); `addTouchSupport` is called nowhere in
the source, so no listener exists for a touch start or a touch end and such an
event runs nothing. -/
def Page.handle (e : Event) (p : Page) : Page :=
  match e with
  | .clickControl i =>
    { p with gallery :=
        p.gallery.runAll (p.gallery.clickListeners (fun g => g.controls) i) }
  | .clickDot i =>
    { p with gallery :=
        p.gallery.runAll (p.gallery.clickListeners (fun g => g.dots) i) }
  | .touchstart _ _ => p
  | .touchend _ _ => p
  | .wait t => p.elapse t

/-- Dispatch of a sequence of inputs, first to last. -/
def Page.handleAll (es : List Event) (p : Page) : Page :=
  es.foldl (fun acc e => acc.handle e) p

/-- The index a listener passes to `goToSlide`, if any, is a slide position. -/
def Handler.InBounds (N : Int) : Handler → Prop
  | .goToSlide index => 0 ≤ index ∧ index < N
  | _ => True

/-- The current slide of the page, when a closure is live. -/
def Page.currentSlide (p : Page) : Option Int :=
  match p.gallery with
  | .live r => some r.currentSlide
  | _ => none

/-- A closure of slide count `N` in a sound state: its count is `N`, its current
slide is a position, and every `click` listener of its buttons and dots passes only
positions to `goToSlide`. -/
def Rotator.WellWired (N : Int) (r : Rotator) : Prop :=
  r.totalSlides = N ∧ r.InRange
  ∧ (∀ b ∈ r.galleryElement.controls, ∀ h ∈ b.click, h.InBounds N)
  ∧ (∀ hs ∈ r.galleryElement.dots.map (fun d => d.click), ∀ h ∈ hs, h.InBounds N)

/-- A page whose gallery is live and sound, with sound interval callbacks. -/
def Page.WellWired (N : Int) (p : Page) : Prop :=
  (∃ r, p.gallery = GallerySlot.live r ∧ r.WellWired N)
  ∧ ∀ iv ∈ p.intervals, iv.callback.InBounds N

end Gallery

/-! ## Form validation and device detection of `src/js/main.js` -/

namespace Main

/-- The characters matched by `\s` in a regular expression and stripped by
`String.prototype.trim`: the white space and line terminator code points of
ECMAScript. -/
def isWhiteSpace (c : Char) : Bool :=
  [0x09, 0x0A, 0x0B, 0x0C, 0x0D, 0x20, 0xA0, 0x1680, 0x2028, 0x2029, 0x202F, 0x205F,
    0x3000, 0xFEFF].contains c.toNat
  || (decide (0x2000 ≤ c.toNat) && decide (c.toNat ≤ 0x200A))

/-- The method `String.prototype.trim` on the characters of a string. -/
def trim (s : List Char) : List Char :=
  ((s.dropWhile isWhiteSpace).reverse.dropWhile isWhiteSpace).reverse

/-- The fragment of regular expressions the two patterns of `validateField` use. A
pattern is anchored at both ends (`^...$`), so it is matched against the whole
string. `atLeast n cls` is a character class under `{n,}` (`+` is `{1,}`). -/
inductive Regex where
  | char (c : Char)
  | atLeast (n : Nat) (cls : Char → Bool)
  | opt (a : Regex)
  | seq (a b : Regex)

/-- The method `RegExp.prototype.test` for an anchored pattern: whether the whole string
matches. A sequence matches when some split of the string matches both parts: that is
what the backtracking matcher of the host finds. -/
def Regex.test : Regex → List Char → Bool
  | .char c, s => decide (s = [c])
  | .atLeast n cls, s => decide (n ≤ s.length) && s.all cls
  | .opt a, s => s.isEmpty || a.test s
  | .seq a b, s =>
    (List.range (s.length + 1)).any fun i => a.test (s.take i) && b.test (s.drop i)

/-- The class `[^\s@]`. -/
def notSpaceNorAt (c : Char) : Bool := !(isWhiteSpace c || c == '@')

/-- The class `[\d\s\-\(\)]`. -/
def phoneChar (c : Char) : Bool :=
  c.isDigit || isWhiteSpace c || c == '-' || c == '(' || c == ')'

/-- The constant `emailRegex` (line 132): `/^[^\s@]+@[^\s@]+\.[^\s@]+$/`. -/
def emailRegex : Regex :=
  .seq (.atLeast 1 notSpaceNorAt)
    (.seq (.char '@')
      (.seq (.atLeast 1 notSpaceNorAt)
        (.seq (.char '.') (.atLeast 1 notSpaceNorAt))))

/-- The constant `phoneRegex` (line 141): `/^[\+]?[\d\s\-\(\)]{10,}$/`. -/
def phoneRegex : Regex :=
  .seq (.opt (.char '+')) (.atLeast 10 phoneChar)

/-- An `input` or `textarea` element as `validateField` sees it: its `type` property,
whether it has the attribute `required`, its value, whether its class list holds
`error`, and which element is its `parentNode`. -/
structure Field where
  type : String
  required : Bool
  value : String
  errorClass : Bool
  parentNode : Nat

/-- The text of the `.field-error` element found under each parent node, `none` where
there is no such element. Parents are taken not to be nested in one another. -/
abbrev FieldErrors := Nat → Option String

/-- The function `clearFieldError` (lines 182-188). -/
def clearFieldError (field : Field) (errs : FieldErrors) : Field × FieldErrors :=
  ({ field with errorClass := false }, Function.update errs field.parentNode none)

/-- The function `showFieldError` (lines 169-179). -/
def showFieldError (field : Field) (message : String) (errs : FieldErrors) :
    Field × FieldErrors :=
  ({ field with errorClass := true }, Function.update errs field.parentNode (some message))

/-- The function `validateField` (lines 115-153) called on an event whose target is
`field`: the returned `isValid`, and the field and error elements as it leaves them.
The pair `(isValid, message)` is threaded through the three checks as `verdict`;
`!value` on a string is emptiness. -/
def validateField (field : Field) (errs : FieldErrors) : Bool × Field × FieldErrors :=
  let value := trim field.value.toList
  let verdict0 : Bool × String := (true, "")
  let cleared := clearFieldError field errs
  let verdict1 :=
    if cleared.1.required && value.isEmpty then (false, "This field is required")
    else verdict0
  let verdict2 :=
    if decide (cleared.1.type = "email") && !value.isEmpty then
      if !emailRegex.test value then (false, "Please enter a valid email address")
      else verdict1
    else verdict1
  let verdict3 :=
    if decide (cleared.1.type = "tel") && !value.isEmpty then
      if !phoneRegex.test value then (false, "Please enter a valid phone number")
      else verdict2
    else verdict2
  if !verdict3.1 then
    let shown := showFieldError cleared.1 verdict3.2 cleared.2
    (verdict3.1, shown.1, shown.2)
  else (verdict3.1, cleared.1, cleared.2)

/-- A form as `validateForm` sees it: the elements matched by `input, textarea` in
document order, and the error elements of the page. -/
structure Form where
  fields : List Field
  fieldErrors : FieldErrors

/-- The function `validateForm` (lines 156-167): the returned `isValid`, and the form as
the pass leaves it. -/
def validateForm (form : Form) : Bool × Form :=
  form.fields.foldl
    (fun acc field =>
      let out := validateField field acc.2.fieldErrors
      (if !out.1 then false else acc.1,
        { fields := acc.2.fields ++ [out.2.1], fieldErrors := out.2.2 }))
    (true, { fields := [], fieldErrors := form.fieldErrors })

/-- The verdict of `validateField` on a field, computed with no error element on the
page (the verdict does not read them). -/
def isValidField (field : Field) : Bool := (validateField field (fun _ => none)).1

/-- A sample form used to instantiate the theorems: a required email field holding
`x`, a required text field holding `ok`, and an optional phone field holding `12`
that still carries an old error class. -/
def sampleForm : Form :=
  { fields :=
      [{ type := "email", required := true, value := "x", errorClass := false,
         parentNode := 0 },
       { type := "text", required := true, value := "ok", errorClass := false,
         parentNode := 1 },
       { type := "tel", required := false, value := "12", errorClass := true,
         parentNode := 2 }]
    fieldErrors := fun _ => none }

/-- Spec side, in the words of the claim: `local@domain.tld`, non-empty runs free of
white space and of `@` around a single `@`, with a `.` separating two non-empty runs
in the domain. -/
def IsEmailShaped (v : List Char) : Prop :=
  ∃ loc dom tld : List Char,
    v = loc ++ '@' :: (dom ++ '.' :: tld)
    ∧ loc ≠ [] ∧ dom ≠ [] ∧ tld ≠ []
    ∧ ∀ c ∈ loc ++ dom ++ tld, isWhiteSpace c = false ∧ c ≠ '@'

/-- Spec side, in the words of the claim: an optional `+` followed by at least 10
characters, each a digit, white space, `-`, `(` or `)`. -/
def IsPhoneShaped (v : List Char) : Prop :=
  ∃ body : List Char,
    (v = body ∨ v = '+' :: body)
    ∧ 10 ≤ body.length
    ∧ ∀ c ∈ body, c.isDigit = true ∨ isWhiteSpace c = true ∨ c = '-' ∨ c = '(' ∨ c = ')'

/-- The function `getDeviceType` (lines 436-441) on the value of `window.innerWidth`. -/
def getDeviceType (innerWidth : Int) : String :=
  let width := innerWidth
  if width < 768 then "mobile"
  else if width < 1024 then "tablet"
  else "desktop"

/-- The order of the three device types, smallest screen first. -/
def deviceRank (t : String) : Nat :=
  if t = "mobile" then 0 else if t = "tablet" then 1 else 2

end Main

/-! ## The mobile menu of `src/js/navigation.js` -/

namespace Navigation

/-- The three pieces of state the menu functions write: whether the class list of
`hamburger` holds `active`, whether that of `overlayMenu` does, and the value of
`document.body.style.overflow` (`hidden` locks page scroll). -/
structure MenuState where
  hamburgerActive : Bool
  overlayActive : Bool
  bodyOverflow : String
  deriving DecidableEq, Repr

/-- The function `openMobileMenu` (lines 88-92). -/
def openMobileMenu (s : MenuState) : MenuState :=
  { s with hamburgerActive := true, overlayActive := true, bodyOverflow := "hidden" }

/-- The function `closeMobileMenu` (lines 95-99). -/
def closeMobileMenu (s : MenuState) : MenuState :=
  { s with hamburgerActive := false, overlayActive := false, bodyOverflow := "" }

/-- The function `toggleMobileMenu` (lines 77-85). -/
def toggleMobileMenu (s : MenuState) : MenuState :=
  let isActive := s.overlayActive
  if isActive then closeMobileMenu s else openMobileMenu s

/-- Whether page scroll is locked. -/
def MenuState.scrollLocked (s : MenuState) : Bool := decide (s.bodyOverflow = "hidden")

/-- The closed state: no flag set. -/
def closed : MenuState := { hamburgerActive := false, overlayActive := false, bodyOverflow := "" }

/-- The open state: every flag set. -/
def opened : MenuState :=
  { hamburgerActive := true, overlayActive := true, bodyOverflow := "hidden" }

/-- A call of one of the three menu functions. -/
inductive MenuCall where
  | openMenu
  | closeMenu
  | toggleMenu
  deriving DecidableEq, Repr

/-- What a call does. -/
def MenuCall.run : MenuCall → MenuState → MenuState
  | .openMenu => openMobileMenu
  | .closeMenu => closeMobileMenu
  | .toggleMenu => toggleMobileMenu

/-- A sequence of calls, first to last. -/
def runCalls (cs : List MenuCall) (s : MenuState) : MenuState :=
  cs.foldl (fun acc c => c.run acc) s

end Navigation

namespace Gallery

/-! ## Basic facts about the operations -/

@[simp] theorem updateDots_currentSlide (r : Rotator) :
    (updateDots r).currentSlide = r.currentSlide := rfl

@[simp] theorem updateDots_totalSlides (r : Rotator) :
    (updateDots r).totalSlides = r.totalSlides := rfl

@[simp] theorem updateGalleryDisplay_currentSlide (r : Rotator) :
    (updateGalleryDisplay r).currentSlide = r.currentSlide := rfl

@[simp] theorem updateGalleryDisplay_totalSlides (r : Rotator) :
    (updateGalleryDisplay r).totalSlides = r.totalSlides := rfl

@[simp] theorem nextSlide_totalSlides (r : Rotator) :
    (nextSlide r).totalSlides = r.totalSlides := rfl

@[simp] theorem prevSlide_totalSlides (r : Rotator) :
    (prevSlide r).totalSlides = r.totalSlides := rfl

theorem nextSlide_currentSlide (r : Rotator) :
    (nextSlide r).currentSlide = jsRem (r.currentSlide + 1) r.totalSlides := rfl

theorem prevSlide_currentSlide (r : Rotator) :
    (prevSlide r).currentSlide
      = jsRem (r.currentSlide - 1 + r.totalSlides) r.totalSlides := rfl

/-- On a non-negative dividend and a non-negative divisor the truncated remainder
is the Euclidean one. -/
theorem jsRem_eq_emod {a b : Int} (ha : 0 ≤ a) (hb : 0 ≤ b) : jsRem a b = a % b :=
  Int.tmod_eq_emod ha hb

/-- Value of `nextSlide` on a state in range, by cases. -/
theorem nextSlide_cases (r : Rotator) (hN : 1 < r.totalSlides) (hr : r.InRange) :
    (nextSlide r).currentSlide
      = if r.currentSlide = r.totalSlides - 1 then 0 else r.currentSlide + 1 := by
  obtain ⟨h0, h1⟩ := hr
  rw [nextSlide_currentSlide, jsRem_eq_emod (by omega) (by omega)]
  split_ifs with h
  · have : r.currentSlide + 1 = r.totalSlides := by omega
    rw [this, Int.emod_self]
  · exact Int.emod_eq_of_lt (by omega) (by omega)

/-- Value of `prevSlide` on a state in range, by cases. -/
theorem prevSlide_cases (r : Rotator) (hN : 1 < r.totalSlides) (hr : r.InRange) :
    (prevSlide r).currentSlide
      = if r.currentSlide = 0 then r.totalSlides - 1 else r.currentSlide - 1 := by
  obtain ⟨h0, h1⟩ := hr
  rw [prevSlide_currentSlide, jsRem_eq_emod (by omega) (by omega)]
  split_ifs with h
  · have : r.currentSlide - 1 + r.totalSlides = r.totalSlides - 1 := by omega
    rw [this]
    exact Int.emod_eq_of_lt (by omega) (by omega)
  · rw [Int.add_emod_self]
    exact Int.emod_eq_of_lt (by omega) (by omega)

theorem nextSlide_inRange (r : Rotator) (hN : 1 < r.totalSlides) (hr : r.InRange) :
    (nextSlide r).InRange := by
  have h := nextSlide_cases r hN hr
  obtain ⟨h0, h1⟩ := hr
  unfold Rotator.InRange
  rw [nextSlide_totalSlides, h]
  split_ifs <;> omega

theorem prevSlide_inRange (r : Rotator) (hN : 1 < r.totalSlides) (hr : r.InRange) :
    (prevSlide r).InRange := by
  have h := prevSlide_cases r hN hr
  obtain ⟨h0, h1⟩ := hr
  unfold Rotator.InRange
  rw [prevSlide_totalSlides, h]
  split_ifs <;> omega

theorem runAll_nil (r : Rotator) : Handler.runAll [] r = r := rfl

theorem runAll_cons (h : Handler) (hs : List Handler) (r : Rotator) :
    Handler.runAll (h :: hs) r = Handler.runAll hs (h.run r) := rfl

theorem run_totalSlides (h : Handler) (r : Rotator) :
    (h.run r).totalSlides = r.totalSlides := by
  cases h <;> rfl

theorem run_directional_inRange (h : Handler) (r : Rotator)
    (hd : h.isDirectional = true) (hN : 1 < r.totalSlides) (hr : r.InRange) :
    (h.run r).InRange := by
  cases h with
  | prevSlide => exact prevSlide_inRange r hN hr
  | nextSlide => exact nextSlide_inRange r hN hr
  | goToSlide index => simp [Handler.isDirectional] at hd

/-- A run of directional listeners preserves the slide count and the range
invariant. -/
theorem runAll_directional (hs : List Handler) :
    ∀ r : Rotator, (∀ h ∈ hs, h.isDirectional = true) → 1 < r.totalSlides → r.InRange →
      (Handler.runAll hs r).totalSlides = r.totalSlides ∧ (Handler.runAll hs r).InRange := by
  induction hs with
  | nil => intro r _ _ hr; exact ⟨rfl, hr⟩
  | cons h hs ih =>
    intro r hd hN hr
    have hh : h.isDirectional = true := hd h (List.mem_cons_self _ _)
    have ht := run_totalSlides h r
    have hi := run_directional_inRange h r hh hN hr
    have := ih (h.run r) (fun x hx => hd x (List.mem_cons_of_mem _ hx)) (by rw [ht]; exact hN) hi
    rw [runAll_cons]
    exact ⟨this.1.trans ht, this.2⟩

/-- A list in which the element at position `k`, and no other, satisfies `p`
has exactly one element satisfying `p`. -/
theorem countP_eq_one_of_unique {α : Type} (p : α → Bool) :
    ∀ (l : List α) (k : Nat), k < l.length →
      (∀ i a, l[i]? = some a → (p a = true ↔ i = k)) → l.countP p = 1 := by
  intro l
  induction l with
  | nil => intro k hk; simp at hk
  | cons x xs ih =>
    intro k hk h
    cases k with
    | zero =>
      have hx : p x = true := (h 0 x (by simp)).2 rfl
      have hz : xs.countP p = 0 := by
        rw [List.countP_eq_zero]
        intro a ha hpa
        obtain ⟨i, hi⟩ := List.getElem?_of_mem ha
        have := (h (i + 1) a (by simpa using hi)).1 hpa
        omega
      rw [List.countP_cons_of_pos _ _ hx, hz]
    | succ k =>
      have hx : ¬ p x = true := fun hp => by
        have := (h 0 x (by simp)).1 hp
        omega
      rw [List.countP_cons_of_neg _ _ hx]
      refine ih k (by simpa using hk) (fun i a hi => ?_)
      have := h (i + 1) a (by simpa using hi)
      simpa using this

theorem updateGalleryDisplay_slides (r : Rotator) :
    (updateGalleryDisplay r).galleryElement.slides
      = r.galleryElement.slides.mapIdx fun index _ =>
          if (index : Int) = r.currentSlide then "block" else "none" := rfl

theorem updateGalleryDisplay_dots (r : Rotator) :
    (updateGalleryDisplay r).galleryElement.dots
      = r.galleryElement.dots.mapIdx fun index dot =>
          { dot with active := decide ((index : Int) = r.currentSlide) } := rfl

theorem updateGalleryDisplay_controls (r : Rotator) :
    (updateGalleryDisplay r).galleryElement.controls = r.galleryElement.controls := rfl

/-- What `updateGalleryDisplay` leaves on screen when `currentSlide` is a position
of both the slide list and the dot list. -/
theorem updateGalleryDisplay_showsOnly (r : Rotator) (k : Nat)
    (hc : r.currentSlide = (k : Int)) (hs : k < r.galleryElement.slides.length)
    (hd : k < r.galleryElement.dots.length) :
    (updateGalleryDisplay r).galleryElement.ShowsOnly k := by
  unfold GalleryElement.ShowsOnly
  rw [updateGalleryDisplay_slides, updateGalleryDisplay_dots, hc]
  refine ⟨?_, ?_, ?_, ?_, ?_, ?_⟩
  · rw [List.count]
    refine countP_eq_one_of_unique _ _ k (by simpa using hs) ?_
    intro i a hi
    rw [List.getElem?_mapIdx] at hi
    cases hx : r.galleryElement.slides[i]? with
    | none => simp [hx] at hi
    | some x =>
      simp only [hx, Option.map_some', Option.some.injEq] at hi
      subst hi
      by_cases hik : i = k
      · simp [hik]
      · have : ¬ ((i : Int) = (k : Int)) := by omega
        simp [this, hik]
  · rw [List.getElem?_mapIdx, List.getElem?_eq_getElem hs]
    simp
  · intro i hi hik
    rw [List.length_mapIdx] at hi
    rw [List.getElem?_mapIdx, List.getElem?_eq_getElem hi]
    have : ¬ ((i : Int) = (k : Int)) := by omega
    simp [this]
  · refine countP_eq_one_of_unique _ _ k (by simpa using hd) ?_
    intro i a hi
    rw [List.getElem?_mapIdx] at hi
    cases hx : r.galleryElement.dots[i]? with
    | none => simp [hx] at hi
    | some x =>
      simp only [hx, Option.map_some', Option.some.injEq] at hi
      subst hi
      simp
  · rw [List.getElem?_mapIdx, List.getElem?_eq_getElem hd]
    simp
  · intro i hi hik
    rw [List.length_mapIdx] at hi
    rw [List.getElem?_mapIdx, List.getElem?_eq_getElem hi]
    have : ¬ ((i : Int) = (k : Int)) := by omega
    simp [this]

theorem updateGalleryDisplay_slides_length (r : Rotator) :
    (updateGalleryDisplay r).galleryElement.slides.length
      = r.galleryElement.slides.length := by
  rw [updateGalleryDisplay_slides, List.length_mapIdx]

theorem updateGalleryDisplay_dots_length (r : Rotator) :
    (updateGalleryDisplay r).galleryElement.dots.length
      = r.galleryElement.dots.length := by
  rw [updateGalleryDisplay_dots, List.length_mapIdx]

/-- Past both guards `initWireframeGallery` builds the navigation on a closure that
starts at slide zero and registers the autoplay interval. -/
theorem initWireframeGallery_live (el : GalleryElement) (h : 1 < el.slides.length) :
    initWireframeGallery (some el)
      = { gallery := GallerySlot.live (createGalleryNavigation
            { currentSlide := 0, totalSlides := el.slides.length, galleryElement := el })
          intervals := [{ delay := 4000, elapsed := 0, callback := Handler.nextSlide }] } := by
  have : ¬ (((el.slides.length : Nat) : Int) ≤ 1) := by omega
  simp [initWireframeGallery, this, galleryConfig]

theorem createGalleryNavigation_dots (r : Rotator) :
    (createGalleryNavigation r).galleryElement.dots
      = (r.galleryElement.dots ++ r.galleryElement.slides.mapIdx fun index _ =>
          ({ className := "gallery-dot", innerHTML := "", active := false,
             click := [Handler.goToSlide index] } : Button)).mapIdx fun index dot =>
          { dot with active := decide ((index : Int) = r.currentSlide) } := rfl

/-- One time unit on a page whose only interval is the autoplay one. -/
theorem tick_autoplay (r : Rotator) (m : Nat) :
    Page.tick { gallery := GallerySlot.live r,
                intervals := [{ delay := 4000, elapsed := m, callback := Handler.nextSlide }] }
      = if 4000 ≤ m + 1 then
          { gallery := GallerySlot.live (nextSlide r),
            intervals := [{ delay := 4000, elapsed := 0, callback := Handler.nextSlide }] }
        else
          { gallery := GallerySlot.live r,
            intervals := [{ delay := 4000, elapsed := m + 1, callback := Handler.nextSlide }] } := by
  by_cases h : 4000 ≤ m + 1
  · simp [Page.tick, Interval.due, Interval.step, h, GallerySlot.runAll, Handler.runAll,
      Handler.run]
  · simp [Page.tick, Interval.due, Interval.step, h, GallerySlot.runAll, Handler.runAll]

/-- The page after `t` time units of autoplay alone: one `nextSlide` per completed
period, and the interval part-way through the current period. -/
theorem elapse_autoplay (r : Rotator) (t : Nat) :
    Page.elapse t { gallery := GallerySlot.live r,
                    intervals := [{ delay := 4000, elapsed := 0, callback := Handler.nextSlide }] }
      = { gallery := GallerySlot.live (nextSlide^[t / 4000] r),
          intervals := [{ delay := 4000, elapsed := t % 4000,
                          callback := Handler.nextSlide }] } := by
  induction t with
  | zero => rfl
  | succ t ih =>
    rw [Page.elapse, Function.iterate_succ_apply', ← Page.elapse, ih, tick_autoplay]
    by_cases h : 4000 ≤ t % 4000 + 1
    · have h1 : (t + 1) / 4000 = t / 4000 + 1 := by omega
      have h2 : (t + 1) % 4000 = 0 := by omega
      rw [if_pos h, h1, h2, Function.iterate_succ_apply']
    · have h1 : (t + 1) / 4000 = t / 4000 := by omega
      have h2 : (t + 1) % 4000 = t % 4000 + 1 := by omega
      rw [if_neg h, h1, h2]

/-- The embedded `Math.abs` is the absolute value. -/
theorem mathAbs_eq_abs (x : Int) : mathAbs x = |x| := by
  unfold mathAbs
  split_ifs with h
  · exact (abs_of_neg h).symm
  · exact (abs_of_nonneg (by omega)).symm

/-- The callbacks `touchend` invokes, in terms of the absolute displacements. -/
theorem touchend_callbacks (s : TouchState) (pageX pageY : Int) :
    (touchend pageX pageY s).2
      = if 150 ≤ |pageX - s.startX| ∧ |pageY - s.startY| ≤ 100 then
          if 0 < pageX - s.startX then [SwipeCallback.onSwipeRight]
          else [SwipeCallback.onSwipeLeft]
        else [] := by
  simp only [touchend, mathAbs_eq_abs, threshold, restraint, ge_iff_le, gt_iff_lt]

/-! ## The claims -/

/-- C1: for a slide count above one and a current index in range, after any
finite sequence of `nextSlide` and `prevSlide` calls the current index is again
between zero and the slide count minus one; in particular `prevSlide` never yields
a negative index. -/
theorem C1_currentSlide_stays_in_range (r : Rotator) (hs : List Handler)
    (hN : 1 < r.totalSlides) (h0 : 0 ≤ r.currentSlide)
    (h1 : r.currentSlide ≤ r.totalSlides - 1)
    (hd : ∀ h ∈ hs, h = Handler.nextSlide ∨ h = Handler.prevSlide) :
    (0 ≤ (Handler.runAll hs r).currentSlide
      ∧ (Handler.runAll hs r).currentSlide ≤ r.totalSlides - 1)
    ∧ 0 ≤ (prevSlide r).currentSlide := by
  have hr : r.InRange := ⟨h0, by omega⟩
  have hd' : ∀ h ∈ hs, h.isDirectional = true := by
    intro h hh
    rcases hd h hh with rfl | rfl <;> rfl
  obtain ⟨ht, hi⟩ := runAll_directional hs r hd' hN hr
  refine ⟨⟨hi.1, ?_⟩, (prevSlide_inRange r hN hr).1⟩
  have := hi.2
  rw [ht] at this
  omega

/-- C1 at a concrete state: four slides, index 0, the calls prev, prev, next, prev. -/
theorem C1_currentSlide_stays_in_range_witness :
    (0 ≤ (Handler.runAll [Handler.prevSlide, Handler.prevSlide, Handler.nextSlide,
            Handler.prevSlide] ⟨0, 4, ⟨[], [], []⟩⟩).currentSlide
      ∧ (Handler.runAll [Handler.prevSlide, Handler.prevSlide, Handler.nextSlide,
            Handler.prevSlide] ⟨0, 4, ⟨[], [], []⟩⟩).currentSlide ≤ 4 - 1)
    ∧ 0 ≤ (prevSlide ⟨0, 4, ⟨[], [], []⟩⟩).currentSlide :=
  C1_currentSlide_stays_in_range ⟨0, 4, ⟨[], [], []⟩⟩
    [Handler.prevSlide, Handler.prevSlide, Handler.nextSlide, Handler.prevSlide]
    (by decide) (by decide) (by decide) (by decide)

/-- C2: for a slide count above one and a current index in range, `nextSlide`
followed by `prevSlide` restores the current index, and so does `prevSlide` followed
by `nextSlide`. -/
theorem C2_next_prev_inverse (r : Rotator)
    (hN : 1 < r.totalSlides) (h0 : 0 ≤ r.currentSlide)
    (h1 : r.currentSlide ≤ r.totalSlides - 1) :
    (prevSlide (nextSlide r)).currentSlide = r.currentSlide
    ∧ (nextSlide (prevSlide r)).currentSlide = r.currentSlide := by
  have hr : r.InRange := ⟨h0, by omega⟩
  have hn := nextSlide_cases r hN hr
  have hp := prevSlide_cases r hN hr
  have hpn := prevSlide_cases (nextSlide r) hN (nextSlide_inRange r hN hr)
  have hnp := nextSlide_cases (prevSlide r) hN (prevSlide_inRange r hN hr)
  simp only [nextSlide_totalSlides, prevSlide_totalSlides] at hpn hnp
  constructor
  · rw [hpn, hn]; split_ifs <;> omega
  · rw [hnp, hp]; split_ifs <;> omega

/-- C2 at a concrete state: three slides, index 2 (the wrap-around position). -/
theorem C2_next_prev_inverse_witness :
    (prevSlide (nextSlide ⟨2, 3, ⟨["none", "none", "block"], [], []⟩⟩)).currentSlide = 2
    ∧ (nextSlide (prevSlide ⟨2, 3, ⟨["none", "none", "block"], [], []⟩⟩)).currentSlide = 2 :=
  C2_next_prev_inverse ⟨2, 3, ⟨["none", "none", "block"], [], []⟩⟩
    (by decide) (by decide) (by decide)

/-- C3: for a slide count above one and a current index in range, `nextSlide` sets
the current index to the index plus one modulo the slide count: the index plus one
below the last position, and zero at the last position. With four slides, starting
at zero, three calls give 3 and a fourth gives 0. -/
theorem C3_nextSlide_value (r : Rotator)
    (hN : 1 < r.totalSlides) (h0 : 0 ≤ r.currentSlide)
    (h1 : r.currentSlide ≤ r.totalSlides - 1) :
    (nextSlide r).currentSlide = (r.currentSlide + 1) % r.totalSlides
    ∧ (r.currentSlide < r.totalSlides - 1 → (nextSlide r).currentSlide = r.currentSlide + 1)
    ∧ (r.currentSlide = r.totalSlides - 1 → (nextSlide r).currentSlide = 0)
    ∧ (∀ g : GalleryElement,
        (nextSlide^[3] ⟨0, 4, g⟩).currentSlide = 3
        ∧ (nextSlide^[4] ⟨0, 4, g⟩).currentSlide = 0) := by
  have hr : r.InRange := ⟨h0, by omega⟩
  have hn := nextSlide_cases r hN hr
  refine ⟨?_, ?_, ?_, ?_⟩
  · rw [nextSlide_currentSlide, jsRem_eq_emod (by omega) (by omega)]
  · intro h; rw [hn, if_neg (by omega)]
  · intro h; rw [hn, if_pos h]
  · intro g; exact ⟨rfl, rfl⟩

/-- C3 at a concrete state: four slides, index 3 wraps to 0. -/
theorem C3_nextSlide_value_witness :
    (nextSlide ⟨3, 4, ⟨[], [], []⟩⟩).currentSlide = 0 :=
  (C3_nextSlide_value ⟨3, 4, ⟨[], [], []⟩⟩ (by decide) (by decide) (by decide)).2.2.1
    (by decide)

/-- C4: for a slide count above one and a current index in range, `prevSlide` sets
the current index to the index minus one plus the slide count, modulo the slide
count: the index minus one above position zero, and the last position at zero. -/
theorem C4_prevSlide_value (r : Rotator)
    (hN : 1 < r.totalSlides) (h0 : 0 ≤ r.currentSlide)
    (h1 : r.currentSlide ≤ r.totalSlides - 1) :
    (prevSlide r).currentSlide = (r.currentSlide - 1 + r.totalSlides) % r.totalSlides
    ∧ (0 < r.currentSlide → (prevSlide r).currentSlide = r.currentSlide - 1)
    ∧ (r.currentSlide = 0 → (prevSlide r).currentSlide = r.totalSlides - 1) := by
  have hr : r.InRange := ⟨h0, by omega⟩
  have hp := prevSlide_cases r hN hr
  refine ⟨?_, ?_, ?_⟩
  · rw [prevSlide_currentSlide, jsRem_eq_emod (by omega) (by omega)]
  · intro h; rw [hp, if_neg (by omega)]
  · intro h; rw [hp, if_pos h]

/-- C4 at a concrete state: four slides, index 0 wraps to 3. -/
theorem C4_prevSlide_value_witness :
    (prevSlide ⟨0, 4, ⟨[], [], []⟩⟩).currentSlide = 4 - 1 :=
  (C4_prevSlide_value ⟨0, 4, ⟨[], [], []⟩⟩ (by decide) (by decide) (by decide)).2.2
    (by decide)

/-- In a display that shows only position `k`, the dot at any position of the query is
active exactly when the position is `k`. -/
theorem showsOnly_dot_at (g : GalleryElement) (k : Nat) (h : g.ShowsOnly k) (i : Nat)
    (hi : i < g.dots.length) :
    g.dots[i]?.map (fun d => d.active) = some (decide (i = k)) := by
  obtain ⟨-, -, -, -, e, f⟩ := h
  by_cases hik : i = k
  · rw [hik, e]; simp
  · rw [f i hi hik]; simp [hik]

/-- C5 (as the code behaves): for `N` slides and a current index `k` in range, after
`updateGalleryDisplay` exactly one slide has display `block` and it is the slide at `k`,
every other slide has display `none`; exactly one element of the re-queried
`.gallery-dot` list carries `active` and it is the one at position `k` of that list.
When `p` other `.gallery-dot` elements precede the `N` generated dots, generated dot `j`
(at position `p + j`) is active exactly when `p + j = k`; with `p = 0` exactly one
generated dot is active and it is the dot of slide `k`. -/
theorem C5_render_shows_current (r : Rotator) (N k p : Nat)
    (hslides : r.galleryElement.slides.length = N)
    (hdots : p + N ≤ r.galleryElement.dots.length)
    (hk : k < N) (hc : r.currentSlide = (k : Int)) :
    (updateGalleryDisplay r).galleryElement.slides.length = N
    ∧ (updateGalleryDisplay r).galleryElement.dots.length = r.galleryElement.dots.length
    ∧ (updateGalleryDisplay r).galleryElement.slides.count "block" = 1
    ∧ (updateGalleryDisplay r).galleryElement.slides[k]? = some "block"
    ∧ (∀ i, i < N → i ≠ k →
        (updateGalleryDisplay r).galleryElement.slides[i]? = some "none")
    ∧ (updateGalleryDisplay r).galleryElement.dots.countP (fun d => d.active) = 1
    ∧ (updateGalleryDisplay r).galleryElement.dots[k]?.map (fun d => d.active) = some true
    ∧ (∀ i, i < r.galleryElement.dots.length → i ≠ k →
        (updateGalleryDisplay r).galleryElement.dots[i]?.map (fun d => d.active)
          = some false)
    ∧ (∀ j, j < N →
        (updateGalleryDisplay r).galleryElement.dots[p + j]?.map (fun d => d.active)
          = some (decide (p + j = k)))
    ∧ (p = 0 → ∀ j, j < N →
        (updateGalleryDisplay r).galleryElement.dots[j]?.map (fun d => d.active)
          = some (decide (j = k))) := by
  have h := updateGalleryDisplay_showsOnly r k hc (by omega) (by omega)
  have hl := updateGalleryDisplay_slides_length r
  have hm := updateGalleryDisplay_dots_length r
  have hat := showsOnly_dot_at _ k h
  obtain ⟨a, b, c, d, e, f⟩ := h
  refine ⟨by omega, hm, a, b, fun i hi => c i (by omega), d, e,
    fun i hi => f i (by omega), fun j hj => hat (p + j) (by omega), ?_⟩
  intro hp j hj
  exact hat j (by omega)

/-- C5 at a concrete state: three slides and their three dots, index 1. -/
theorem C5_render_shows_current_witness :
    (updateGalleryDisplay sampleRotator).galleryElement.slides = ["none", "block", "none"]
    ∧ (updateGalleryDisplay sampleRotator).galleryElement.slides.count "block" = 1
    ∧ (updateGalleryDisplay sampleRotator).galleryElement.dots.countP (fun d => d.active)
        = 1
    ∧ (updateGalleryDisplay sampleRotator).galleryElement.dots[1]?.map (fun d => d.active)
        = some true :=
  have h := C5_render_shows_current sampleRotator 3 1 0 rfl (by decide) (by decide) rfl
  ⟨rfl, h.2.2.1, h.2.2.2.2.2.1, h.2.2.2.2.2.2.2.2.2 rfl 1 (by decide)⟩

/-- C5 fails as stated: on two slides whose container holds one `.gallery-dot` of its
own ahead of the two generated dots, with the current index at 1, the render shows
slide 1 and marks the dot at query position 1, which is the generated dot of slide 0
(bound to `goToSlide 0`); the generated dot of slide 1 is not active. -/
theorem C5_stray_dot_counterexample :
    (updateGalleryDisplay { strayRotator with currentSlide := 1 }).galleryElement.slides
        = ["none", "block"]
    ∧ ((updateGalleryDisplay { strayRotator with currentSlide := 1 }).galleryElement.dots.map
          fun d => (d.click, d.active))
        = [([], false), ([Handler.goToSlide 0], true), ([Handler.goToSlide 1], false)]
    ∧ ¬ (((updateGalleryDisplay
            { strayRotator with currentSlide := 1 }).galleryElement.dots.filter
          fun d => d.active).map fun d => d.click) = [[Handler.goToSlide 1]] := by
  refine ⟨by decide, by decide, by decide⟩

/-- C6 (as the code behaves): for `N` slides, whatever the previous index,
`goToSlide k` with `k` in range sets the current index to `k`, and the display it
renders has exactly one visible slide, at `k`, and exactly one active element of the
re-queried `.gallery-dot` list, at position `k` of that list. When `p` other
`.gallery-dot` elements precede the `N` generated dots, generated dot `j` is active
exactly when `p + j = k`; with `p = 0` it is the dot of slide `k`. -/
theorem C6_goToSlide_sets_and_shows (r : Rotator) (N k p : Nat)
    (hslides : r.galleryElement.slides.length = N)
    (hdots : p + N ≤ r.galleryElement.dots.length)
    (hk : k < N) :
    (goToSlide k r).currentSlide = k
    ∧ (goToSlide k r).galleryElement.slides.length = N
    ∧ (goToSlide k r).galleryElement.dots.length = r.galleryElement.dots.length
    ∧ (goToSlide k r).galleryElement.slides.count "block" = 1
    ∧ (goToSlide k r).galleryElement.slides[k]? = some "block"
    ∧ (∀ i, i < N → i ≠ k → (goToSlide k r).galleryElement.slides[i]? = some "none")
    ∧ (goToSlide k r).galleryElement.dots.countP (fun d => d.active) = 1
    ∧ (goToSlide k r).galleryElement.dots[k]?.map (fun d => d.active) = some true
    ∧ (∀ i, i < r.galleryElement.dots.length → i ≠ k →
        (goToSlide k r).galleryElement.dots[i]?.map (fun d => d.active) = some false)
    ∧ (∀ j, j < N →
        (goToSlide k r).galleryElement.dots[p + j]?.map (fun d => d.active)
          = some (decide (p + j = k)))
    ∧ (p = 0 → ∀ j, j < N →
        (goToSlide k r).galleryElement.dots[j]?.map (fun d => d.active)
          = some (decide (j = k))) := by
  have h := updateGalleryDisplay_showsOnly { r with currentSlide := (k : Int) } k rfl
    (show k < r.galleryElement.slides.length by omega)
    (show k < r.galleryElement.dots.length by omega)
  have hl : (goToSlide k r).galleryElement.slides.length = r.galleryElement.slides.length :=
    updateGalleryDisplay_slides_length { r with currentSlide := (k : Int) }
  have hm : (goToSlide k r).galleryElement.dots.length = r.galleryElement.dots.length :=
    updateGalleryDisplay_dots_length { r with currentSlide := (k : Int) }
  have hat : ∀ i, i < r.galleryElement.dots.length →
      (goToSlide k r).galleryElement.dots[i]?.map (fun d => d.active)
        = some (decide (i = k)) :=
    fun i hi => showsOnly_dot_at _ k h i (by rw [← hm] at hi; exact hi)
  obtain ⟨a, b, c, d, e, f⟩ := h
  refine ⟨rfl, hl.trans hslides, hm, a, b, fun i hi => c i ?_, d, e, fun i hi => f i ?_,
    fun j hj => hat (p + j) (by omega), fun hp j hj => hat j (by omega)⟩
  · have : i < (goToSlide k r).galleryElement.slides.length := by rw [hl, hslides]; exact hi
    exact this
  · have : i < (goToSlide k r).galleryElement.dots.length := by rw [hm]; exact hi
    exact this

/-- C6 at a concrete state: from index 1, `goToSlide 2` on three slides and their
three dots. -/
theorem C6_goToSlide_sets_and_shows_witness :
    (goToSlide 2 sampleRotator).currentSlide = 2
    ∧ (goToSlide 2 sampleRotator).galleryElement.slides = ["none", "none", "block"]
    ∧ (goToSlide 2 sampleRotator).galleryElement.dots.countP (fun d => d.active) = 1
    ∧ (goToSlide 2 sampleRotator).galleryElement.dots[2]?.map (fun d => d.active)
        = some true :=
  have h := C6_goToSlide_sets_and_shows sampleRotator 3 2 0 rfl (by decide) (by decide)
  ⟨h.1, rfl, h.2.2.2.2.2.2.1, h.2.2.2.2.2.2.2.2.2.2 rfl 2 (by decide)⟩

/-- C6 fails as stated: on two slides whose container holds one `.gallery-dot` of its
own ahead of the two generated dots, `goToSlide 1` shows slide 1 and marks the dot at
query position 1, which is the generated dot of slide 0; the generated dot of slide 1
is not active. -/
theorem C6_stray_dot_counterexample :
    (goToSlide 1 strayRotator).currentSlide = 1
    ∧ (goToSlide 1 strayRotator).galleryElement.slides = ["none", "block"]
    ∧ ((goToSlide 1 strayRotator).galleryElement.dots.map fun d => (d.click, d.active))
        = [([], false), ([Handler.goToSlide 0], true), ([Handler.goToSlide 1], false)]
    ∧ ¬ (((goToSlide 1 strayRotator).galleryElement.dots.filter
          fun d => d.active).map fun d => d.click) = [[Handler.goToSlide 1]] := by
  refine ⟨rfl, by decide, by decide, by decide⟩

/-- C7: when the container has no slide or one slide, `initWireframeGallery` leaves the
element exactly as it found it (no button, no dot, no slide display changed),
registers no interval and keeps no live closure; the page then stays the same
however much time passes. -/
theorem C7_inert_when_at_most_one_slide (el : GalleryElement)
    (h : el.slides.length ≤ 1) :
    initWireframeGallery (some el) = { gallery := GallerySlot.idle el, intervals := [] }
    ∧ ∀ t, (initWireframeGallery (some el)).elapse t = initWireframeGallery (some el) := by
  have h1 : initWireframeGallery (some el)
      = { gallery := GallerySlot.idle el, intervals := [] } := by
    have : ((el.slides.length : Nat) : Int) ≤ 1 := by omega
    simp [initWireframeGallery, this]
  refine ⟨h1, fun t => ?_⟩
  rw [h1]
  induction t with
  | zero => rfl
  | succ t ih =>
    rw [Page.elapse, Function.iterate_succ_apply', ← Page.elapse, ih]
    rfl

/-- C7 at a concrete container: a single slide shown as the markup set it. -/
theorem C7_inert_when_at_most_one_slide_witness :
    initWireframeGallery (some ⟨["block"], [], []⟩)
      = { gallery := GallerySlot.idle ⟨["block"], [], []⟩, intervals := [] } :=
  (C7_inert_when_at_most_one_slide ⟨["block"], [], []⟩ (by decide)).1

/-- C8 (as the code behaves): on a container with `N > 1` slides `initWireframeGallery`
creates exactly `N` dots of class `gallery-dot` and exactly two directional buttons,
`gallery-prev` bound to `prevSlide` and `gallery-next` bound to `nextSlide`; generated
dot `i` is bound to `goToSlide i`, so every index a generated dot passes to
`goToSlide` lies in `[0, N-1]`; the closure starts at `currentSlide = 0` and the display
is rendered for it: slide 0 is the only visible slide and the first element of the
re-queried `.gallery-dot` list is the only active one. The generated dots follow the
`.gallery-dot` elements the markup already holds, so generated dot 0 is the active one
exactly when the markup holds none. -/
theorem C8_init_builds_navigation (el : GalleryElement) (N : Nat)
    (hN : 1 < N) (hs : el.slides.length = N) :
    ∃ r prevBtn nextBtn,
      (initWireframeGallery (some el)).gallery = GallerySlot.live r
      ∧ r.currentSlide = 0 ∧ r.totalSlides = N
      ∧ r.galleryElement.slides.length = N
      ∧ r.galleryElement.controls = el.controls ++ [prevBtn, nextBtn]
      ∧ prevBtn.className = "gallery-prev" ∧ prevBtn.click = [Handler.prevSlide]
      ∧ Handler.prevSlide.run = prevSlide
      ∧ nextBtn.className = "gallery-next" ∧ nextBtn.click = [Handler.nextSlide]
      ∧ Handler.nextSlide.run = nextSlide
      ∧ r.galleryElement.dots.length = el.dots.length + N
      ∧ (∀ i : Nat, i < el.dots.length →
          r.galleryElement.dots[i]?.map (fun d => (d.className, d.click))
            = el.dots[i]?.map (fun d => (d.className, d.click)))
      ∧ (∀ i : Nat, i < N →
          r.galleryElement.dots[el.dots.length + i]?.map (fun d => (d.className, d.click))
              = some ("gallery-dot", [Handler.goToSlide i])
          ∧ (Handler.goToSlide i).run = goToSlide i
          ∧ (0 : Int) ≤ (i : Int) ∧ (i : Int) < (N : Int))
      ∧ r.galleryElement.ShowsOnly 0
      ∧ (∀ i : Nat, i < N →
          r.galleryElement.dots[el.dots.length + i]?.map (fun d => d.active)
            = some (decide (el.dots.length + i = 0)))
      ∧ (el.dots = [] →
          r.galleryElement.dots.length = N
          ∧ ∀ i : Nat, i < N →
              r.galleryElement.dots[i]?.map (fun d => d.active) = some (decide (i = 0))) := by
  have hlive := initWireframeGallery_live el (by omega)
  have hdots := createGalleryNavigation_dots
    { currentSlide := 0, totalSlides := el.slides.length, galleryElement := el }
  simp only at hdots
  have hlen : (createGalleryNavigation
        { currentSlide := 0, totalSlides := el.slides.length, galleryElement := el }
        ).galleryElement.dots.length = el.dots.length + N := by
    rw [hdots, List.length_mapIdx, List.length_append, List.length_mapIdx, hs]
  have hshow : (createGalleryNavigation
        { currentSlide := 0, totalSlides := el.slides.length, galleryElement := el }
        ).galleryElement.ShowsOnly 0 := by
    show (updateGalleryDisplay _).galleryElement.ShowsOnly 0
    refine updateGalleryDisplay_showsOnly _ 0 rfl ?_ ?_
    · show 0 < el.slides.length
      omega
    · show 0 < (el.dots ++ _).length
      rw [List.length_append, List.length_mapIdx]
      show 0 < el.dots.length + el.slides.length
      omega
  have hat := showsOnly_dot_at _ 0 hshow
  have hgen : ∀ i : Nat, i < N →
      (createGalleryNavigation
        { currentSlide := 0, totalSlides := el.slides.length, galleryElement := el }
        ).galleryElement.dots[el.dots.length + i]?.map (fun d => (d.className, d.click))
        = some ("gallery-dot", [Handler.goToSlide i]) := by
    intro i hi
    rw [hdots, List.getElem?_mapIdx, List.getElem?_append_right (by omega),
      Nat.add_sub_cancel_left, List.getElem?_mapIdx, List.getElem?_eq_getElem (by omega)]
    rfl
  have hold : ∀ i : Nat, i < el.dots.length →
      (createGalleryNavigation
        { currentSlide := 0, totalSlides := el.slides.length, galleryElement := el }
        ).galleryElement.dots[i]?.map (fun d => (d.className, d.click))
        = el.dots[i]?.map (fun d => (d.className, d.click)) := by
    intro i hi
    rw [hdots, List.getElem?_mapIdx, List.getElem?_append_left hi,
      List.getElem?_eq_getElem hi]
    rfl
  refine ⟨_, Button.mk "gallery-prev" "‹" false [Handler.prevSlide],
    Button.mk "gallery-next" "›" false [Handler.nextSlide], by rw [hlive], rfl,
    by simp [createGalleryNavigation, hs], ?_, rfl, rfl, rfl, rfl, rfl, rfl, rfl, hlen, hold,
    fun i hi => ⟨hgen i hi, rfl, by omega, by omega⟩, hshow,
    fun i hi => hat _ (by rw [hlen]; omega), ?_⟩
  · show (updateGalleryDisplay _).galleryElement.slides.length = N
    rw [updateGalleryDisplay_slides_length]; exact hs
  · intro hd
    have hz : el.dots.length = 0 := by rw [hd]; rfl
    refine ⟨by rw [hlen, hz, Nat.zero_add], fun i hi => hat i (by rw [hlen]; omega)⟩

/-- C8 at a concrete container: three slides, no dot of its own. -/
theorem C8_init_builds_navigation_witness :
    ∃ r, (initWireframeGallery (some sampleGallery)).gallery = GallerySlot.live r
      ∧ r.currentSlide = 0 ∧ r.galleryElement.dots.length = 3
      ∧ r.galleryElement.ShowsOnly 0
      ∧ r.galleryElement.dots[0]?.map (fun d => d.active) = some true :=
  let ⟨r, _, _, h1, h2, _, _, _, _, _, _, _, _, _, _, _, _, h4, _, h5⟩ :=
    C8_init_builds_navigation sampleGallery 3 (by decide) rfl
  ⟨r, h1, h2, (h5 rfl).1, h4, (h5 rfl).2 0 (by decide)⟩

/-- C8 fails as stated: on two slides whose container holds one `.gallery-dot` of its
own, initialisation renders with `currentSlide = 0` and marks the markup's dot, the
first of the query; generated dot 0 (bound to `goToSlide 0`) is not active, and no
generated dot is. -/
theorem C8_stray_dot_counterexample :
    (initWireframeGallery (some strayGallery)).gallery = GallerySlot.live strayRotator
    ∧ strayRotator.currentSlide = 0
    ∧ (strayRotator.galleryElement.dots.map fun d => (d.click, d.active))
        = [([], true), ([Handler.goToSlide 0], false), ([Handler.goToSlide 1], false)]
    ∧ ¬ ((strayRotator.galleryElement.dots.filter fun d => d.active).map fun d => d.click)
          = [[Handler.goToSlide 0]] := by
  refine ⟨?_, rfl, by decide, by decide⟩
  rw [initWireframeGallery_live strayGallery (by decide)]
  rfl

/-- C9: with more than one slide `initWireframeGallery` registers exactly one interval,
of period 4000, whose callback is one `nextSlide`; with no other event, after `t`
time units the closure is the initial one with `nextSlide` applied `t / 4000` times
(rounded down). With at most one slide, or no gallery element, no interval is
registered. -/
theorem C9_autoplay_period (el : GalleryElement) :
    (1 < el.slides.length →
      (initWireframeGallery (some el)).intervals
          = [{ delay := 4000, elapsed := 0, callback := Handler.nextSlide }]
        ∧ Handler.nextSlide.run = nextSlide
        ∧ ∃ r0, (initWireframeGallery (some el)).gallery = GallerySlot.live r0
            ∧ ∀ t, ((initWireframeGallery (some el)).elapse t).gallery
                = GallerySlot.live (nextSlide^[t / 4000] r0))
    ∧ (el.slides.length ≤ 1 → (initWireframeGallery (some el)).intervals = [])
    ∧ (initWireframeGallery none).intervals = [] := by
  refine ⟨fun h => ?_, fun h => ?_, rfl⟩
  · have hlive := initWireframeGallery_live el h
    refine ⟨by rw [hlive], rfl, _, by rw [hlive], fun t => ?_⟩
    rw [hlive, elapse_autoplay]
  · have : ((el.slides.length : Nat) : Int) ≤ 1 := by omega
    simp [initWireframeGallery, this]

/-- C9 at a concrete container: three slides; after 9000 time units two advances
have been applied, so slide 2 is current. -/
theorem C9_autoplay_period_witness :
    (initWireframeGallery (some sampleGallery)).intervals
        = [{ delay := 4000, elapsed := 0, callback := Handler.nextSlide }]
    ∧ ∃ r0, (initWireframeGallery (some sampleGallery)).gallery = GallerySlot.live r0
        ∧ ((initWireframeGallery (some sampleGallery)).elapse 9000).gallery
            = GallerySlot.live (nextSlide^[2] r0) :=
  have h := (C9_autoplay_period sampleGallery).1 (by decide)
  let ⟨r0, h0, ht⟩ := h.2.2
  ⟨h.1, r0, h0, ht 9000⟩

/-- C10: for every touch start and touch end position, with `distX = endX - startX` and
`distY = endY - startY`, the `touchend` listener invokes a callback if and only if
`|distX| >= 150` and `|distY| <= 100`; when it does it invokes exactly one callback
exactly once, `onSwipeRight` when `distX > 0` and `onSwipeLeft` when `distX < 0`;
every other gesture invokes nothing. This holds whatever state earlier gestures
left in the detector. -/
theorem C10_swipe_detection (s : TouchState) (startX startY endX endY : Int) :
    (touchend endX endY (touchstart startX startY s)).1.distX = endX - startX
    ∧ (touchend endX endY (touchstart startX startY s)).1.distY = endY - startY
    ∧ ((touchend endX endY (touchstart startX startY s)).2 ≠ []
        ↔ (150 ≤ |endX - startX| ∧ |endY - startY| ≤ 100))
    ∧ (150 ≤ |endX - startX| → |endY - startY| ≤ 100 → 0 < endX - startX →
        (touchend endX endY (touchstart startX startY s)).2 = [SwipeCallback.onSwipeRight])
    ∧ (150 ≤ |endX - startX| → |endY - startY| ≤ 100 → endX - startX < 0 →
        (touchend endX endY (touchstart startX startY s)).2 = [SwipeCallback.onSwipeLeft])
    ∧ (¬ (150 ≤ |endX - startX| ∧ |endY - startY| ≤ 100) →
        (touchend endX endY (touchstart startX startY s)).2 = []) := by
  have h := touchend_callbacks (touchstart startX startY s) endX endY
  have hx : (touchstart startX startY s).startX = startX := rfl
  have hy : (touchstart startX startY s).startY = startY := rfl
  rw [hx, hy] at h
  refine ⟨rfl, rfl, ?_, ?_, ?_, ?_⟩
  · rw [h]
    constructor
    · intro hne
      by_contra hc
      exact hne (if_neg hc)
    · intro hc
      rw [if_pos hc]
      split_ifs <;> simp
  · intro h1 h2 h3
    rw [h, if_pos ⟨h1, h2⟩, if_pos h3]
  · intro h1 h2 h3
    rw [h, if_pos ⟨h1, h2⟩, if_neg (by omega)]
  · intro hc
    rw [h, if_neg hc]

/-- C10 at concrete gestures: 200 to the left with a vertical drift of 10 invokes
`onSwipeLeft` once; the same with a vertical drift of 150 invokes nothing. -/
theorem C10_swipe_detection_witness :
    swipe 300 50 100 60 = [SwipeCallback.onSwipeLeft] ∧ swipe 300 50 100 200 = [] :=
  ⟨(C10_swipe_detection addTouchSupport 300 50 100 60).2.2.2.2.1
      (by simp) (by simp) (by decide),
   (C10_swipe_detection addTouchSupport 300 50 100 200).2.2.2.2.2 (by simp)⟩

/-! ## Touch input and safety of the operations -/

theorem map_click_mapIdx (l : List Button) (f : Nat → Bool) :
    (l.mapIdx fun index dot => { dot with active := f index }).map (fun d => d.click)
      = l.map (fun d => d.click) := by
  apply List.ext_getElem?
  intro n
  rw [List.getElem?_map, List.getElem?_map, List.getElem?_mapIdx]
  cases l[n]? <;> rfl

theorem updateGalleryDisplay_dots_click (r : Rotator) :
    (updateGalleryDisplay r).galleryElement.dots.map (fun d => d.click)
      = r.galleryElement.dots.map (fun d => d.click) := by
  rw [updateGalleryDisplay_dots]
  exact map_click_mapIdx _ _

theorem run_controls (h : Handler) (r : Rotator) :
    (h.run r).galleryElement.controls = r.galleryElement.controls := by
  cases h <;> rfl

theorem run_dots_click (h : Handler) (r : Rotator) :
    (h.run r).galleryElement.dots.map (fun d => d.click)
      = r.galleryElement.dots.map (fun d => d.click) := by
  cases h <;> exact updateGalleryDisplay_dots_click _

theorem run_inBounds_inRange (h : Handler) (r : Rotator)
    (hb : h.InBounds r.totalSlides) (hN : 1 < r.totalSlides) (hr : r.InRange) :
    (h.run r).InRange := by
  cases h with
  | prevSlide => exact prevSlide_inRange r hN hr
  | nextSlide => exact nextSlide_inRange r hN hr
  | goToSlide index => exact hb

/-- A listener within bounds keeps a sound closure sound. -/
theorem run_wellWired (N : Int) (hN : 1 < N) (h : Handler) (r : Rotator)
    (hb : h.InBounds N) (hr : r.WellWired N) : (h.run r).WellWired N := by
  obtain ⟨ht, hi, hc, hd⟩ := hr
  refine ⟨(run_totalSlides h r).trans ht, ?_, ?_, ?_⟩
  · exact run_inBounds_inRange h r (by rw [ht]; exact hb) (by rw [ht]; exact hN) hi
  · rw [run_controls]; exact hc
  · rw [run_dots_click]; exact hd

theorem runAll_wellWired (N : Int) (hN : 1 < N) (hs : List Handler) :
    ∀ r : Rotator, (∀ h ∈ hs, h.InBounds N) → r.WellWired N →
      (Handler.runAll hs r).WellWired N := by
  induction hs with
  | nil => intro r _ hr; exact hr
  | cons h hs ih =>
    intro r hb hr
    rw [runAll_cons]
    exact ih _ (fun x hx => hb x (List.mem_cons_of_mem _ hx))
      (run_wellWired N hN h r (hb h (List.mem_cons_self _ _)) hr)

theorem step_callback (iv : Interval) : iv.step.callback = iv.callback := by
  unfold Interval.step
  split_ifs <;> rfl

theorem tick_wellWired (N : Int) (hN : 1 < N) (p : Page) (hp : p.WellWired N) :
    p.tick.WellWired N := by
  obtain ⟨⟨r, hg, hr⟩, hiv⟩ := hp
  refine ⟨⟨Handler.runAll ((p.intervals.filter Interval.due).map Interval.callback) r,
    ?_, ?_⟩, ?_⟩
  · show p.gallery.runAll _ = _
    rw [hg]; rfl
  · refine runAll_wellWired N hN _ r ?_ hr
    intro h hh
    obtain ⟨iv, hiv', rfl⟩ := List.mem_map.1 hh
    exact hiv iv (List.mem_of_mem_filter hiv')
  · intro iv hh
    obtain ⟨iv0, h0, rfl⟩ := List.mem_map.1 (show iv ∈ p.intervals.map Interval.step from hh)
    rw [step_callback]
    exact hiv iv0 h0

theorem elapse_wellWired (N : Int) (hN : 1 < N) (t : Nat) (p : Page)
    (hp : p.WellWired N) : (p.elapse t).WellWired N := by
  induction t with
  | zero => exact hp
  | succ t ih =>
    rw [Page.elapse, Function.iterate_succ_apply', ← Page.elapse]
    exact tick_wellWired N hN _ ih

theorem click_wellWired (N : Int) (hN : 1 < N) (p : Page) (hp : p.WellWired N)
    (hs : List Handler) (hb : ∀ h ∈ hs, h.InBounds N) :
    Page.WellWired N { p with gallery := p.gallery.runAll hs } := by
  obtain ⟨⟨r, hg, hr⟩, hiv⟩ := hp
  refine ⟨⟨Handler.runAll hs r, ?_, runAll_wellWired N hN hs r hb hr⟩, hiv⟩
  show p.gallery.runAll hs = _
  rw [hg]; rfl

theorem handle_wellWired (N : Int) (hN : 1 < N) (e : Event) (p : Page)
    (hp : p.WellWired N) : (p.handle e).WellWired N := by
  obtain ⟨⟨r, hg, hr⟩, hiv⟩ := id hp
  cases e with
  | clickControl i =>
    refine click_wellWired N hN p hp _ ?_
    intro h hh
    rw [hg] at hh
    simp only [GallerySlot.clickListeners] at hh
    cases hb : r.galleryElement.controls[i]? with
    | none => rw [hb] at hh; simp at hh
    | some b =>
      rw [hb] at hh
      exact hr.2.2.1 b (List.mem_iff_getElem?.2 ⟨i, hb⟩) h hh
  | clickDot i =>
    refine click_wellWired N hN p hp _ ?_
    intro h hh
    rw [hg] at hh
    simp only [GallerySlot.clickListeners] at hh
    cases hb : r.galleryElement.dots[i]? with
    | none => rw [hb] at hh; simp at hh
    | some b =>
      rw [hb] at hh
      exact hr.2.2.2 b.click (List.mem_map.2 ⟨b, List.mem_iff_getElem?.2 ⟨i, hb⟩, rfl⟩) h hh
  | touchstart x y => exact hp
  | touchend x y => exact hp
  | wait t => exact elapse_wellWired N hN t p hp

theorem handleAll_wellWired (N : Int) (hN : 1 < N) (es : List Event) :
    ∀ p : Page, p.WellWired N → (p.handleAll es).WellWired N := by
  induction es with
  | nil => intro p hp; exact hp
  | cons e es ih =>
    intro p hp
    exact ih _ (handle_wellWired N hN e p hp)

/-- Past the guard the page is sound, provided the elements that were in the markup
before the closure existed carry none of its listeners. -/
theorem initWireframeGallery_wellWired (el : GalleryElement) (hN : 1 < el.slides.length)
    (hpre : ∀ b ∈ el.controls ++ el.dots, b.click = []) :
    (initWireframeGallery (some el)).WellWired (el.slides.length : Int) := by
  rw [initWireframeGallery_live el hN]
  refine ⟨⟨_, rfl, rfl, ⟨le_refl _, ?_⟩, ?_, ?_⟩, ?_⟩
  · show (0 : Int) < (el.slides.length : Int)
    omega
  · intro b hb h hh
    have hb' : b ∈ el.controls ++ [Button.mk "gallery-prev" "‹" false [Handler.prevSlide],
        Button.mk "gallery-next" "›" false [Handler.nextSlide]] := hb
    rcases List.mem_append.1 hb' with h1 | h1
    · rw [hpre b (List.mem_append_left _ h1)] at hh
      simp at hh
    · simp only [List.mem_cons, List.mem_singleton, List.not_mem_nil, or_false] at h1
      rcases h1 with rfl | rfl
      · simp only [List.mem_singleton] at hh
        subst hh; trivial
      · simp only [List.mem_singleton] at hh
        subst hh; trivial
  · intro hs hhs h hh
    rw [createGalleryNavigation_dots, map_click_mapIdx, List.map_append] at hhs
    rcases List.mem_append.1 hhs with h1 | h1
    · obtain ⟨b, hb, rfl⟩ := List.mem_map.1 h1
      rw [hpre b (List.mem_append_right _ hb)] at hh
      simp at hh
    · obtain ⟨b, hb, rfl⟩ := List.mem_map.1 h1
      obtain ⟨i, hi, rfl⟩ := List.mem_mapIdx.1 hb
      simp only [List.mem_singleton] at hh
      subst hh
      show (0 : Int) ≤ (i : Int) ∧ (i : Int) < (el.slides.length : Int)
      have : i < el.slides.length := hi
      omega
  · intro iv hiv
    simp only [List.mem_singleton] at hiv
    subst hiv; trivial

theorem elapse_idle (el : GalleryElement) (t : Nat) :
    Page.elapse t { gallery := GallerySlot.idle el, intervals := [] }
      = { gallery := GallerySlot.idle el, intervals := [] } := by
  induction t with
  | zero => rfl
  | succ t ih =>
    rw [Page.elapse, Function.iterate_succ_apply', ← Page.elapse, ih]
    rfl

theorem handleAll_idle (el : GalleryElement) (es : List Event) :
    Page.handleAll es { gallery := GallerySlot.idle el, intervals := [] }
      = { gallery := GallerySlot.idle el, intervals := [] } := by
  induction es with
  | nil => rfl
  | cons e es ih =>
    have h1 : Page.handle e { gallery := GallerySlot.idle el, intervals := [] }
        = { gallery := GallerySlot.idle el, intervals := [] } := by
      cases e with
      | clickControl i => rfl
      | clickDot i => rfl
      | touchstart x y => rfl
      | touchend x y => rfl
      | wait t => exact elapse_idle el t
    show Page.handleAll es (Page.handle e _) = _
    rw [h1, ih]

/-- C11 (as the code behaves): `initWireframeGallery` registers no touch listener, so
a touch start followed by a touch end on the page, at any coordinates, leaves the
page and its current slide as they were; the detector `addTouchSupport` on its own,
for a gesture with `distX = -200` and `distY = 10`, invokes its `onSwipeLeft` callback
exactly once, and for `distX = -200` and `distY = 150` invokes nothing. -/
theorem C11_touch_not_wired (p : Page) (startX startY endX endY : Int) :
    Page.handleAll [Event.touchstart startX startY, Event.touchend endX endY] p = p
    ∧ (Page.handleAll [Event.touchstart startX startY, Event.touchend endX endY]
        p).currentSlide = p.currentSlide
    ∧ (touchend (startX - 200) (startY + 10) (touchstart startX startY addTouchSupport)).2
        = [SwipeCallback.onSwipeLeft]
    ∧ (touchend (startX - 200) (startY + 150) (touchstart startX startY addTouchSupport)).2
        = [] := by
  refine ⟨rfl, rfl, ?_, ?_⟩
  · have h := touchend_callbacks (touchstart startX startY addTouchSupport)
      (startX - 200) (startY + 10)
    have hx : (touchstart startX startY addTouchSupport).startX = startX := rfl
    have hy : (touchstart startX startY addTouchSupport).startY = startY := rfl
    rw [hx, hy] at h
    have e1 : startX - 200 - startX = -200 := by ring
    have e2 : startY + 10 - startY = 10 := by ring
    rw [h, e1, e2]
    simp
  · have h := touchend_callbacks (touchstart startX startY addTouchSupport)
      (startX - 200) (startY + 150)
    have hx : (touchstart startX startY addTouchSupport).startX = startX := rfl
    have hy : (touchstart startX startY addTouchSupport).startY = startY := rfl
    rw [hx, hy] at h
    have e1 : startX - 200 - startX = -200 := by ring
    have e2 : startY + 150 - startY = 150 := by ring
    rw [h, e1, e2]
    simp

/-- C11 fails as stated: on an initialised rotator with three slides at index 0, a touch
gesture with `distX = -200` and `distY = 10` leaves the current slide at 0, while one
advance would make it 1. -/
theorem C11_touch_gesture_counterexample :
    (initWireframeGallery (some sampleGallery)).currentSlide = some 0
    ∧ (Page.handleAll [Event.touchstart 300 50, Event.touchend 100 60]
        (initWireframeGallery (some sampleGallery))).currentSlide = some 0
    ∧ (Page.handleAll [Event.touchstart 300 50, Event.touchend 100 60]
        (initWireframeGallery (some sampleGallery))).currentSlide
        ≠ some (((0 : Int) + 1) % 3) := by
  have h : (initWireframeGallery (some sampleGallery)).currentSlide = some 0 := by
    rw [initWireframeGallery_live sampleGallery (by decide)]
    rfl
  refine ⟨h, h, ?_⟩
  show (initWireframeGallery (some sampleGallery)).currentSlide ≠ _
  rw [h]
  decide

/-- C12: on a container with more than one slide, after any sequence of clicks on the
gallery's buttons and dots, touch events and elapsed time, the closure is live with a
slide count equal to the number of slides, at least 2 and so never zero, and a
current slide in range; with at most one slide no operation ever runs. On every state
in range with a count of at least 2, `nextSlide`, `prevSlide`, `updateGalleryDisplay`
and `goToSlide` at a position each return a state in range with the same count. -/
theorem C12_operations_never_fail (el : GalleryElement) (es : List Event) :
    (1 < el.slides.length → (∀ b ∈ el.controls ++ el.dots, b.click = []) →
      ∃ r, (Page.handleAll es (initWireframeGallery (some el))).gallery = GallerySlot.live r
        ∧ r.totalSlides = el.slides.length ∧ 2 ≤ r.totalSlides ∧ r.totalSlides ≠ 0
        ∧ 0 ≤ r.currentSlide ∧ r.currentSlide < r.totalSlides)
    ∧ (el.slides.length ≤ 1 →
        Page.handleAll es (initWireframeGallery (some el))
          = { gallery := GallerySlot.idle el, intervals := [] })
    ∧ (∀ r : Rotator, 2 ≤ r.totalSlides → 0 ≤ r.currentSlide →
        r.currentSlide < r.totalSlides →
        (nextSlide r).InRange ∧ (nextSlide r).totalSlides = r.totalSlides
        ∧ (prevSlide r).InRange ∧ (prevSlide r).totalSlides = r.totalSlides
        ∧ (updateGalleryDisplay r).InRange
        ∧ (updateGalleryDisplay r).totalSlides = r.totalSlides
        ∧ ∀ index : Int, 0 ≤ index → index < r.totalSlides →
            (goToSlide index r).InRange ∧ (goToSlide index r).totalSlides = r.totalSlides
            ∧ (goToSlide index r).currentSlide = index) := by
  refine ⟨fun hN hpre => ?_, fun hN => ?_, fun r h2 h0 h1 => ?_⟩
  · have hw := handleAll_wellWired (el.slides.length : Int) (by omega) es _
      (initWireframeGallery_wellWired el hN hpre)
    obtain ⟨⟨r, hg, ht, hi, -, -⟩, -⟩ := hw
    refine ⟨r, hg, ht, ?_, ?_, hi.1, hi.2⟩ <;> rw [ht] <;> omega
  · have h1 : initWireframeGallery (some el)
        = { gallery := GallerySlot.idle el, intervals := [] } := by
      have : ((el.slides.length : Nat) : Int) ≤ 1 := by omega
      simp [initWireframeGallery, this]
    rw [h1, handleAll_idle]
  · have hr : r.InRange := ⟨h0, h1⟩
    exact ⟨nextSlide_inRange r (by omega) hr, rfl, prevSlide_inRange r (by omega) hr, rfl,
      hr, rfl, fun index hi0 hi1 => ⟨⟨hi0, hi1⟩, rfl, rfl⟩⟩

/-- C12 at a concrete container: three slides; after a click on the previous button,
8000 time units, a swipe and a click on the last dot, the closure is live, counts 3
slides and its current slide is in range. -/
theorem C12_operations_never_fail_witness :
    ∃ r, (Page.handleAll [Event.clickControl 0, Event.wait 8000, Event.touchstart 300 50,
            Event.touchend 100 60, Event.clickDot 2]
          (initWireframeGallery (some sampleGallery))).gallery = GallerySlot.live r
      ∧ r.totalSlides = 3 ∧ 0 ≤ r.currentSlide ∧ r.currentSlide < r.totalSlides :=
  let ⟨r, hg, ht, _, _, h0, h1⟩ :=
    (C12_operations_never_fail sampleGallery
      [Event.clickControl 0, Event.wait 8000, Event.touchstart 300 50,
        Event.touchend 100 60, Event.clickDot 2]).1 (by decide) (by decide)
  ⟨r, hg, ht, h0, h1⟩

/-! ## Iterated moves and out-of-range indices -/

/-- After `k` calls of `nextSlide` from a state in range. -/
theorem iterate_nextSlide (r : Rotator) (hN : 1 < r.totalSlides) (hr : r.InRange) (k : Nat) :
    (nextSlide^[k] r).totalSlides = r.totalSlides
    ∧ (nextSlide^[k] r).currentSlide = (r.currentSlide + k) % r.totalSlides := by
  induction k with
  | zero =>
    refine ⟨rfl, ?_⟩
    show r.currentSlide = (r.currentSlide + ((0 : Nat) : Int)) % r.totalSlides
    rw [Nat.cast_zero, add_zero, Int.emod_eq_of_lt hr.1 hr.2]
  | succ k ih =>
    obtain ⟨ht, hc⟩ := ih
    rw [Function.iterate_succ_apply']
    refine ⟨ht, ?_⟩
    have hnn : 0 ≤ (r.currentSlide + k) % r.totalSlides := Int.emod_nonneg _ (by omega)
    rw [nextSlide_currentSlide, ht, hc, jsRem_eq_emod (by omega) (by omega),
      Int.emod_add_emod]
    push_cast
    rw [add_assoc]

/-- After `k` calls of `prevSlide` from a state in range. -/
theorem iterate_prevSlide (r : Rotator) (hN : 1 < r.totalSlides) (hr : r.InRange) (k : Nat) :
    (prevSlide^[k] r).totalSlides = r.totalSlides
    ∧ (prevSlide^[k] r).currentSlide = (r.currentSlide - k) % r.totalSlides := by
  induction k with
  | zero =>
    refine ⟨rfl, ?_⟩
    show r.currentSlide = (r.currentSlide - ((0 : Nat) : Int)) % r.totalSlides
    rw [Nat.cast_zero, sub_zero, Int.emod_eq_of_lt hr.1 hr.2]
  | succ k ih =>
    obtain ⟨ht, hc⟩ := ih
    rw [Function.iterate_succ_apply']
    refine ⟨ht, ?_⟩
    have hnn : 0 ≤ (r.currentSlide - k) % r.totalSlides := Int.emod_nonneg _ (by omega)
    rw [prevSlide_currentSlide, ht, hc, jsRem_eq_emod (by omega) (by omega),
      Int.add_emod_self]
    have e : (r.currentSlide - (k : Int)) % r.totalSlides - 1
        = (r.currentSlide - (k : Int)) % r.totalSlides + (-1) := by ring
    rw [e, Int.emod_add_emod]
    push_cast
    congr 1
    ring

/-- C17: for a slide count `n > 1` and a current index `c` in range, `k` calls of
`nextSlide` give `(c + k) mod n`, `k` calls of `prevSlide` give `(c - k) mod n` taken in
`[0, n-1]`; `n` calls of either return to `c`; and `k` calls of `nextSlide` give the
same index as `n - (k mod n)` calls of `prevSlide`. -/
theorem C17_iterated_moves (r : Rotator) (n k : Nat)
    (hN : 1 < n) (hn : r.totalSlides = n)
    (h0 : 0 ≤ r.currentSlide) (h1 : r.currentSlide ≤ (n : Int) - 1) :
    (nextSlide^[k] r).currentSlide = (r.currentSlide + k) % n
    ∧ (prevSlide^[k] r).currentSlide = (r.currentSlide - k) % n
    ∧ 0 ≤ (prevSlide^[k] r).currentSlide ∧ (prevSlide^[k] r).currentSlide ≤ (n : Int) - 1
    ∧ (nextSlide^[n] r).currentSlide = r.currentSlide
    ∧ (prevSlide^[n] r).currentSlide = r.currentSlide
    ∧ (nextSlide^[k] r).currentSlide = (prevSlide^[n - k % n] r).currentSlide := by
  have hN' : 1 < r.totalSlides := by rw [hn]; omega
  have hr : r.InRange := ⟨h0, by rw [hn]; omega⟩
  have hnx := fun j => (iterate_nextSlide r hN' hr j).2
  have hpv := fun j => (iterate_prevSlide r hN' hr j).2
  rw [hn] at hnx hpv
  have hpos : (0 : Int) < n := by omega
  have hself : r.currentSlide % (n : Int) = r.currentSlide :=
    Int.emod_eq_of_lt h0 (by omega)
  refine ⟨hnx k, hpv k, ?_, ?_, ?_, ?_, ?_⟩
  · rw [hpv k]; exact Int.emod_nonneg _ (by omega)
  · rw [hpv k]
    have := Int.emod_lt_of_pos (r.currentSlide - k) hpos
    omega
  · rw [hnx n, Int.add_emod_self, hself]
  · rw [hpv n]
    have e : r.currentSlide - (n : Int) = r.currentSlide + (-1) * (n : Int) := by ring
    rw [e, Int.add_mul_emod_self, hself]
  · rw [hnx k, hpv (n - k % n)]
    have hlt : k % n < n := Nat.mod_lt _ (by omega)
    have hcast : ((n - k % n : Nat) : Int) = (n : Int) - ((k % n : Nat) : Int) := by omega
    have hk : (k : Int) = ((k % n : Nat) : Int) + (n : Int) * ((k / n : Nat) : Int) := by
      have := Nat.mod_add_div k n
      exact_mod_cast this.symm
    rw [hcast]
    have e1 : r.currentSlide + (k : Int)
        = (r.currentSlide + ((k % n : Nat) : Int)) + ((k / n : Nat) : Int) * (n : Int) := by
      rw [hk]
      push_cast
      ring
    have e2 : r.currentSlide - ((n : Int) - ((k % n : Nat) : Int))
        = (r.currentSlide + ((k % n : Nat) : Int)) + (-1) * (n : Int) := by ring
    rw [e1, e2, Int.add_mul_emod_self, Int.add_mul_emod_self]

/-- C17 at a concrete state: three slides at index 1; five advances reach index 0, and
so does one retreat (3 - 5 mod 3 = 1). -/
theorem C17_iterated_moves_witness :
    (nextSlide^[5] sampleRotator).currentSlide = (1 + 5) % 3
    ∧ (nextSlide^[5] sampleRotator).currentSlide
        = (prevSlide^[3 - 5 % 3] sampleRotator).currentSlide :=
  have h := C17_iterated_moves sampleRotator 3 5 (by decide) rfl (by decide) (by decide)
  ⟨h.1, h.2.2.2.2.2.2⟩

/-- The truncated remainder of a non-positive dividend is non-positive. -/
theorem jsRem_nonpos (a b : Int) (ha : a ≤ 0) : jsRem a b ≤ 0 := by
  unfold jsRem
  cases a with
  | ofNat m =>
    have : m = 0 := by
      have : (m : Int) ≤ 0 := ha
      omega
    subst this
    simp
  | negSucc m =>
    cases b with
    | ofNat q =>
      show -((((m + 1) % q : Nat) : Int)) ≤ 0
      omega
    | negSucc q =>
      show -((((m + 1) % (q + 1) : Nat) : Int)) ≤ 0
      omega

/-- The truncated remainder is negative exactly on a negative dividend that the
divisor does not divide. -/
theorem jsRem_neg_iff (a b : Int) : jsRem a b < 0 ↔ a < 0 ∧ ¬ b ∣ a := by
  constructor
  · intro h
    have ha : a < 0 := by
      by_contra hc
      have := Int.tmod_nonneg b (show 0 ≤ a by omega)
      unfold jsRem at h
      omega
    refine ⟨ha, fun hd => ?_⟩
    have := Int.tmod_eq_zero_of_dvd hd
    unfold jsRem at h
    omega
  · rintro ⟨ha, hd⟩
    have h1 := jsRem_nonpos a b (by omega)
    have h2 : jsRem a b ≠ 0 := fun h0 => hd (Int.dvd_of_tmod_eq_zero h0)
    omega

/-- C18 (as the code behaves): `goToSlide` performs no range check. For a slide count
`n > 1` and a safe integer `k` outside `[0, n-1]`, `goToSlide k` stores `k` and its render
leaves no slide visible; of the re-queried `.gallery-dot` list it leaves active the
element at position `k` and no other, so none when `k` is no position of that list, as
when the list is just the `n` generated dots. A following `nextSlide` sets the current
index to the truncated remainder of `k + 1` by `n`, which is below `n`, and is negative
exactly when `k < -1` and `n` does not divide `k + 1`. -/
theorem C18_goToSlide_unchecked (r : Rotator) (n : Nat) (k : Int)
    (hN : 1 < n) (ht : r.totalSlides = n)
    (hs : r.galleryElement.slides.length = n)
    (hk : k < 0 ∨ (n : Int) ≤ k) (_hsafe : isSafeInteger k = true) :
    (goToSlide k r).currentSlide = k
    ∧ (goToSlide k r).galleryElement.slides.length = n
    ∧ (goToSlide k r).galleryElement.slides.count "block" = 0
    ∧ (∀ s ∈ (goToSlide k r).galleryElement.slides, s = "none")
    ∧ (goToSlide k r).galleryElement.dots.length = r.galleryElement.dots.length
    ∧ (∀ i : Nat, i < r.galleryElement.dots.length →
        (goToSlide k r).galleryElement.dots[i]?.map (fun d => d.active)
          = some (decide ((i : Int) = k)))
    ∧ (k < 0 ∨ (r.galleryElement.dots.length : Int) ≤ k →
        (goToSlide k r).galleryElement.dots.countP (fun d => d.active) = 0)
    ∧ (r.galleryElement.dots.length = n →
        (goToSlide k r).galleryElement.dots.countP (fun d => d.active) = 0)
    ∧ (nextSlide (goToSlide k r)).currentSlide = Int.tmod (k + 1) n
    ∧ (nextSlide (goToSlide k r)).currentSlide < n
    ∧ ((nextSlide (goToSlide k r)).currentSlide < 0 ↔ (k < -1 ∧ ¬ (n : Int) ∣ k + 1)) := by
  have hsl : (goToSlide k r).galleryElement.slides
      = r.galleryElement.slides.mapIdx fun index _ =>
          if (index : Int) = k then "block" else "none" := rfl
  have hdt : (goToSlide k r).galleryElement.dots
      = r.galleryElement.dots.mapIdx fun index dot =>
          { dot with active := decide ((index : Int) = k) } := rfl
  have hall : ∀ s ∈ (goToSlide k r).galleryElement.slides, s = "none" := by
    intro s hmem
    rw [hsl] at hmem
    obtain ⟨i, hi, rfl⟩ := List.mem_mapIdx.1 hmem
    have : ¬ ((i : Int) = k) := by omega
    simp [this]
  have hnx : (nextSlide (goToSlide k r)).currentSlide = Int.tmod (k + 1) n := by
    show jsRem (k + 1) r.totalSlides = _
    rw [ht]; rfl
  have hzero : k < 0 ∨ (r.galleryElement.dots.length : Int) ≤ k →
      (goToSlide k r).galleryElement.dots.countP (fun d => d.active) = 0 := by
    intro hout
    rw [List.countP_eq_zero]
    intro d hmem
    rw [hdt] at hmem
    obtain ⟨i, hi, rfl⟩ := List.mem_mapIdx.1 hmem
    have : ¬ ((i : Int) = k) := by omega
    simp [this]
  refine ⟨rfl, ?_, ?_, hall, ?_, ?_, hzero, ?_, hnx, ?_, ?_⟩
  · rw [hsl, List.length_mapIdx, hs]
  · rw [List.count_eq_zero]
    intro hmem
    exact absurd (hall _ hmem) (by decide)
  · rw [hdt, List.length_mapIdx]
  · intro i hi
    rw [hdt, List.getElem?_mapIdx, List.getElem?_eq_getElem hi]
    rfl
  · intro hd
    refine hzero ?_
    rw [hd]; exact hk
  · rw [hnx]
    exact Int.tmod_lt_of_pos _ (by omega)
  · rw [hnx]
    have h := jsRem_neg_iff (k + 1) n
    unfold jsRem at h
    rw [h]
    constructor
    · rintro ⟨h1, h2⟩; exact ⟨by omega, h2⟩
    · rintro ⟨h1, h2⟩; exact ⟨by omega, h2⟩

/-- C18 at a concrete state: three slides and their three dots, `goToSlide (-3)` then
`nextSlide` gives the index -2. -/
theorem C18_goToSlide_unchecked_witness :
    (goToSlide (-3) sampleRotator).galleryElement.slides = ["none", "none", "none"]
    ∧ (goToSlide (-3) sampleRotator).galleryElement.dots.countP (fun d => d.active) = 0
    ∧ (nextSlide (goToSlide (-3) sampleRotator)).currentSlide = -2 :=
  have h := C18_goToSlide_unchecked sampleRotator 3 (-3) (by decide) rfl rfl
    (Or.inl (by decide)) (by decide)
  ⟨rfl, h.2.2.2.2.2.2.2.1 rfl, h.2.2.2.2.2.2.2.2.1.trans (by decide)⟩

/-- C18 fails as stated, twice. With two slides and `k = -3 < -1`, `goToSlide k` followed
by `nextSlide` gives the index 0, which is not negative. With two slides whose container
holds one `.gallery-dot` of its own ahead of the two generated dots, `goToSlide 2` (2 is
outside `[0, 1]`) leaves the dot at query position 2 active, so not zero dots are
active. -/
theorem C18_negative_remainder_counterexample :
    (((-3 : Int) < 0 ∧ (-3 : Int) < -1)
      ∧ (nextSlide (goToSlide (-3)
          ⟨0, 2, ⟨["", ""], [],
            [Button.mk "gallery-dot" "" true [Handler.goToSlide 0],
             Button.mk "gallery-dot" "" false [Handler.goToSlide 1]]⟩⟩)).currentSlide = 0
      ∧ ¬ ((nextSlide (goToSlide (-3)
          ⟨0, 2, ⟨["", ""], [],
            [Button.mk "gallery-dot" "" true [Handler.goToSlide 0],
             Button.mk "gallery-dot" "" false [Handler.goToSlide 1]]⟩⟩)).currentSlide < 0))
    ∧ (strayRotator.totalSlides = 2 ∧ strayRotator.galleryElement.slides.length = 2
      ∧ (goToSlide 2 strayRotator).galleryElement.slides = ["none", "none"]
      ∧ ((goToSlide 2 strayRotator).galleryElement.dots.map fun d => d.active)
          = [false, false, true]
      ∧ (goToSlide 2 strayRotator).galleryElement.dots.countP (fun d => d.active) ≠ 0) :=
  ⟨⟨by decide, by decide, by decide⟩, rfl, by decide, by decide, by decide, by decide⟩

end Gallery

/-! ## Form validation -/

namespace Main

theorem test_char (c : Char) (s : List Char) : (Regex.char c).test s = true ↔ s = [c] := by
  simp [Regex.test]

theorem test_atLeast (n : Nat) (cls : Char → Bool) (s : List Char) :
    (Regex.atLeast n cls).test s = true ↔ n ≤ s.length ∧ ∀ c ∈ s, cls c = true := by
  simp [Regex.test]

theorem test_opt (a : Regex) (s : List Char) :
    (Regex.opt a).test s = true ↔ s = [] ∨ a.test s = true := by
  simp [Regex.test, List.isEmpty_iff]

/-- A sequence matches exactly when the string splits into a match of each part. -/
theorem test_seq (a b : Regex) (s : List Char) :
    (Regex.seq a b).test s = true
      ↔ ∃ s1 s2, s = s1 ++ s2 ∧ a.test s1 = true ∧ b.test s2 = true := by
  simp only [Regex.test, List.any_eq_true, List.mem_range, Bool.and_eq_true]
  constructor
  · rintro ⟨i, -, h1, h2⟩
    exact ⟨s.take i, s.drop i, (List.take_append_drop i s).symm, h1, h2⟩
  · rintro ⟨s1, s2, rfl, h1, h2⟩
    refine ⟨s1.length, by simp; omega, ?_, ?_⟩
    · rw [List.take_left]; exact h1
    · rw [List.drop_left]; exact h2

theorem notSpaceNorAt_iff (c : Char) :
    notSpaceNorAt c = true ↔ isWhiteSpace c = false ∧ c ≠ '@' := by
  simp [notSpaceNorAt]

theorem phoneChar_iff (c : Char) :
    phoneChar c = true
      ↔ c.isDigit = true ∨ isWhiteSpace c = true ∨ c = '-' ∨ c = '(' ∨ c = ')' := by
  simp [phoneChar, or_assoc]

/-- The pattern `emailRegex` accepts exactly the strings of the shape the claim
words. -/
theorem emailRegex_test_iff (v : List Char) :
    emailRegex.test v = true ↔ IsEmailShaped v := by
  unfold emailRegex IsEmailShaped
  simp only [test_seq, test_char, test_atLeast, notSpaceNorAt_iff]
  constructor
  · rintro ⟨loc, r1, rfl, ⟨hl, hlc⟩, a1, r2, rfl, rfl, dom, r3, rfl, ⟨hd, hdc⟩, d1, tld,
      rfl, rfl, ht, htc⟩
    refine ⟨loc, dom, tld, by simp, ?_, ?_, ?_, ?_⟩
    · intro h; rw [h] at hl; simp at hl
    · intro h; rw [h] at hd; simp at hd
    · intro h; rw [h] at ht; simp at ht
    · intro c hc
      simp only [List.mem_append] at hc
      rcases hc with (hc | hc) | hc
      · exact hlc c hc
      · exact hdc c hc
      · exact htc c hc
  · rintro ⟨loc, dom, tld, rfl, hl, hd, ht, hc⟩
    have len_pos : ∀ l : List Char, l ≠ [] → 1 ≤ l.length := fun l hl =>
      List.length_pos.2 hl
    refine ⟨loc, _, rfl, ⟨len_pos loc hl, fun c h => hc c (by simp [h])⟩, ['@'], _, rfl, rfl,
      dom, _, rfl, ⟨len_pos dom hd, fun c h => hc c (by simp [h])⟩, ['.'], tld, rfl, rfl,
      len_pos tld ht, fun c h => hc c (by simp [h])⟩

/-- The pattern `phoneRegex` accepts exactly the strings of the shape the claim
words. -/
theorem phoneRegex_test_iff (v : List Char) :
    phoneRegex.test v = true ↔ IsPhoneShaped v := by
  unfold phoneRegex IsPhoneShaped
  simp only [test_seq, test_char, test_atLeast, test_opt, phoneChar_iff]
  constructor
  · rintro ⟨s1, body, hv, h1, hlen, hc⟩
    refine ⟨body, ?_, hlen, hc⟩
    rcases h1 with h1 | h1
    · left; rw [hv, h1]; rfl
    · right; rw [hv, h1]; rfl
  · rintro ⟨body, hv, hlen, hc⟩
    rcases hv with hv | hv
    · exact ⟨[], body, hv, Or.inl rfl, hlen, hc⟩
    · exact ⟨['+'], body, hv, Or.inr rfl, hlen, hc⟩

/-- The verdict of `validateField` depends on the field alone: it fails on an empty
required value, on a non-empty `email` value the email pattern rejects, and on a
non-empty `tel` value the phone pattern rejects. -/
theorem validateField_verdict (field : Field) (errs : FieldErrors) :
    (validateField field errs).1
      = !((field.required && (trim field.value.toList).isEmpty)
          || (decide (field.type = "email") && !(trim field.value.toList).isEmpty
              && !emailRegex.test (trim field.value.toList))
          || (decide (field.type = "tel") && !(trim field.value.toList).isEmpty
              && !phoneRegex.test (trim field.value.toList))) := by
  obtain ⟨ty, req, val, ec, pn⟩ := field
  simp only [validateField, clearFieldError]
  generalize (trim val.toList).isEmpty = b
  generalize emailRegex.test (trim val.toList) = c
  generalize phoneRegex.test (trim val.toList) = d
  generalize decide (ty = "email") = e
  generalize decide (ty = "tel") = f
  cases req <;> cases b <;> cases c <;> cases d <;> cases e <;> cases f <;> rfl

/-- The field leaves `validateField` with the class `error` exactly when it is
invalid. -/
theorem validateField_errorClass (field : Field) (errs : FieldErrors) :
    (validateField field errs).2.1.errorClass = !(validateField field errs).1 := by
  obtain ⟨ty, req, val, ec, pn⟩ := field
  simp only [validateField, clearFieldError, showFieldError]
  generalize (trim val.toList).isEmpty = b
  generalize emailRegex.test (trim val.toList) = c
  generalize phoneRegex.test (trim val.toList) = d
  generalize decide (ty = "email") = e
  generalize decide (ty = "tel") = f
  cases req <;> cases b <;> cases c <;> cases d <;> cases e <;> cases f <;> rfl

theorem validateField_fst (field : Field) (errs : FieldErrors) :
    (validateField field errs).1 = isValidField field := by
  rw [isValidField, validateField_verdict, validateField_verdict]

/-- The pass of `validateForm` over a list of fields, from any accumulator: the verdict
is the conjunction of the verdicts, and each field is appended with its own error
class. -/
theorem validateForm_fold (fs : List Field) :
    ∀ acc : Bool × Form,
      (fs.foldl
          (fun acc field =>
            ((if !(validateField field acc.2.fieldErrors).1 then false else acc.1),
              ({ fields := acc.2.fields ++ [(validateField field acc.2.fieldErrors).2.1],
                 fieldErrors := (validateField field acc.2.fieldErrors).2.2 } : Form)))
          acc).1 = (acc.1 && fs.all isValidField)
      ∧ ((fs.foldl
          (fun acc field =>
            ((if !(validateField field acc.2.fieldErrors).1 then false else acc.1),
              ({ fields := acc.2.fields ++ [(validateField field acc.2.fieldErrors).2.1],
                 fieldErrors := (validateField field acc.2.fieldErrors).2.2 } : Form)))
          acc).2.fields.map fun f => f.errorClass)
        = (acc.2.fields.map fun f => f.errorClass) ++ fs.map fun f => !isValidField f := by
  induction fs with
  | nil => intro acc; simp
  | cons f fs ih =>
    intro acc
    rw [List.foldl_cons]
    obtain ⟨h1, h2⟩ := ih
      ((if !(validateField f acc.2.fieldErrors).1 then false else acc.1),
        ({ fields := acc.2.fields ++ [(validateField f acc.2.fieldErrors).2.1],
           fieldErrors := (validateField f acc.2.fieldErrors).2.2 } : Form))
    refine ⟨?_, ?_⟩
    · rw [h1]
      simp only [validateField_fst, List.all_cons]
      cases isValidField f <;> cases acc.1 <;> simp
    · rw [h2]
      simp only [List.map_append, List.map_cons, List.map_nil, validateField_errorClass,
        validateField_fst, List.append_assoc, List.singleton_append]

theorem validateForm_verdict (form : Form) :
    (validateForm form).1 = form.fields.all isValidField := by
  have h := (validateForm_fold form.fields (true, { fields := [], fieldErrors := form.fieldErrors })).1
  simpa [validateForm] using h

theorem validateForm_errorClasses (form : Form) :
    ((validateForm form).2.fields.map fun f => f.errorClass)
      = form.fields.map fun f => !isValidField f := by
  have h := (validateForm_fold form.fields (true, { fields := [], fieldErrors := form.fieldErrors })).2
  simpa [validateForm] using h

/-- C13: `validateField` returns false if and only if, for the trimmed value, the field
is required and the value is empty, or its type is `email`, the value is non-empty
and is not of the shape `local@domain.tld`, or its type is `tel`, the value is
non-empty and is not an optional `+` followed by at least 10 characters of the phone
class. In particular an empty non-required field is valid whatever its type. -/
theorem C13_validateField_verdict (field : Field) (errs : FieldErrors) :
    ((validateField field errs).1 = false ↔
      (field.required = true ∧ trim field.value.toList = [])
      ∨ (field.type = "email" ∧ trim field.value.toList ≠ []
          ∧ ¬ IsEmailShaped (trim field.value.toList))
      ∨ (field.type = "tel" ∧ trim field.value.toList ≠ []
          ∧ ¬ IsPhoneShaped (trim field.value.toList)))
    ∧ (field.required = false → trim field.value.toList = [] →
        (validateField field errs).1 = true) := by
  have hv := validateField_verdict field errs
  have he := emailRegex_test_iff (trim field.value.toList)
  have hp := phoneRegex_test_iff (trim field.value.toList)
  constructor
  · rw [hv, ← he, ← hp]
    simp only [Bool.not_eq_false', Bool.or_eq_true, Bool.and_eq_true, decide_eq_true_eq,
      Bool.not_eq_true', List.isEmpty_iff, Bool.not_eq_true, ne_eq, or_assoc]
    constructor
    · rintro (⟨h1, h2⟩ | ⟨⟨h1, h2⟩, h3⟩ | ⟨⟨h1, h2⟩, h3⟩)
      · exact Or.inl ⟨h1, h2⟩
      · refine Or.inr (Or.inl ⟨h1, ?_, h3⟩)
        intro h; rw [h] at h2; simp at h2
      · refine Or.inr (Or.inr ⟨h1, ?_, h3⟩)
        intro h; rw [h] at h2; simp at h2
    · rintro (⟨h1, h2⟩ | ⟨h1, h2, h3⟩ | ⟨h1, h2, h3⟩)
      · exact Or.inl ⟨h1, h2⟩
      · refine Or.inr (Or.inl ⟨⟨h1, ?_⟩, h3⟩)
        cases h : (trim field.value.toList).isEmpty
        · rfl
        · exact absurd (List.isEmpty_iff.1 h) h2
      · refine Or.inr (Or.inr ⟨⟨h1, ?_⟩, h3⟩)
        cases h : (trim field.value.toList).isEmpty
        · rfl
        · exact absurd (List.isEmpty_iff.1 h) h2
  · intro h1 h2
    rw [hv, h1, h2]
    simp

/-- C13 at concrete fields: an optional email field holding only blanks is valid. -/
theorem C13_validateField_verdict_witness :
    (validateField (Field.mk "email" false "  " true 0) (fun _ => none)).1 = true :=
  (C13_validateField_verdict (Field.mk "email" false "  " true 0) (fun _ => none)).2 rfl
    (by decide)

/-- C14: `validateForm` returns true if and only if `validateField` returns true for
every field of the form; the pass reaches every field, also after a failure: the form
keeps its number of fields and each field ends with the class `error` exactly when it
is invalid; a form with no fields is valid. -/
theorem C14_validateForm_all_fields (form : Form) :
    ((validateForm form).1 = true
      ↔ ∀ field ∈ form.fields, ∀ errs, (validateField field errs).1 = true)
    ∧ (validateForm form).2.fields.length = form.fields.length
    ∧ (∀ (i : Nat) (field : Field), form.fields[i]? = some field → ∀ errs,
        (validateForm form).2.fields[i]?.map (fun f : Field => f.errorClass)
          = some (!(validateField field errs).1))
    ∧ (form.fields = [] → (validateForm form).1 = true) := by
  have hv := validateForm_verdict form
  have hc := validateForm_errorClasses form
  refine ⟨?_, ?_, ?_, ?_⟩
  · rw [hv, List.all_eq_true]
    constructor
    · intro h field hf errs
      rw [validateField_fst]; exact h field hf
    · intro h field hf
      have := h field hf (fun _ => none)
      rwa [validateField_fst] at this
  · have := congrArg List.length hc
    simpa using this
  · intro i field hi errs
    have := congrArg (fun l => l[i]?) hc
    simp only [List.getElem?_map, hi, Option.map_some'] at this
    rw [validateField_fst]
    exact this
  · intro h
    rw [hv, h]; rfl

/-- C14 at a concrete form: the first and the third field are invalid, the second is
valid; the form is rejected and both invalid fields carry the error class. -/
theorem C14_validateForm_all_fields_witness :
    (validateForm sampleForm).1 = false
    ∧ (validateForm sampleForm).2.fields[2]?.map (fun f : Field => f.errorClass)
        = some true :=
  have h := C14_validateForm_all_fields sampleForm
  ⟨by
    cases hb : (validateForm sampleForm).1
    · rfl
    · exact absurd (h.1.1 hb _ (List.mem_cons_self _ _) (fun _ => none)) (by decide),
   (h.2.2.1 2 _ rfl (fun _ => none)).trans (by decide)⟩

/-- C16: `getDeviceType` returns `mobile` exactly for widths below 768, `tablet` exactly
for widths from 768 up to but not including 1024, and `desktop` exactly for widths
from 1024 on; it always returns one of the three, and it is monotone in the width
for the order mobile, tablet, desktop. -/
theorem C16_getDeviceType_classes (w : Int) :
    (getDeviceType w = "mobile" ↔ w < 768)
    ∧ (getDeviceType w = "tablet" ↔ 768 ≤ w ∧ w < 1024)
    ∧ (getDeviceType w = "desktop" ↔ 1024 ≤ w)
    ∧ (getDeviceType w = "mobile" ∨ getDeviceType w = "tablet"
        ∨ getDeviceType w = "desktop")
    ∧ (∀ w2 : Int, w ≤ w2 →
        deviceRank (getDeviceType w) ≤ deviceRank (getDeviceType w2)) := by
  have hcases : ∀ x : Int,
      (x < 768 ∧ getDeviceType x = "mobile")
      ∨ (768 ≤ x ∧ x < 1024 ∧ getDeviceType x = "tablet")
      ∨ (1024 ≤ x ∧ getDeviceType x = "desktop") := by
    intro x
    unfold getDeviceType
    by_cases h1 : x < 768
    · left; exact ⟨h1, by simp [h1]⟩
    · by_cases h2 : x < 1024
      · right; left; exact ⟨by omega, h2, by simp [h1, h2]⟩
      · right; right; exact ⟨by omega, by simp [h1, h2]⟩
  have hne1 : ("tablet" : String) ≠ "mobile" := by decide
  have hne2 : ("desktop" : String) ≠ "mobile" := by decide
  have hne3 : ("desktop" : String) ≠ "tablet" := by decide
  refine ⟨?_, ?_, ?_, ?_, ?_⟩
  · rcases hcases w with ⟨h, e⟩ | ⟨h, h', e⟩ | ⟨h, e⟩ <;> rw [e]
    · simp [h]
    · constructor
      · intro c; exact absurd c hne1
      · intro c; omega
    · constructor
      · intro c; exact absurd c hne2
      · intro c; omega
  · rcases hcases w with ⟨h, e⟩ | ⟨h, h', e⟩ | ⟨h, e⟩ <;> rw [e]
    · constructor
      · intro c; exact absurd c.symm hne1
      · intro c; omega
    · simp [h, h']
    · constructor
      · intro c; exact absurd c hne3
      · intro c; omega
  · rcases hcases w with ⟨h, e⟩ | ⟨h, h', e⟩ | ⟨h, e⟩ <;> rw [e]
    · constructor
      · intro c; exact absurd c.symm hne2
      · intro c; omega
    · constructor
      · intro c; exact absurd c.symm hne3
      · intro c; omega
    · simp [h]
  · rcases hcases w with ⟨h, e⟩ | ⟨h, h', e⟩ | ⟨h, e⟩
    · exact Or.inl e
    · exact Or.inr (Or.inl e)
    · exact Or.inr (Or.inr e)
  · intro w2 hle
    have r1 : deviceRank "mobile" = 0 := by decide
    have r2 : deviceRank "tablet" = 1 := by decide
    have r3 : deviceRank "desktop" = 2 := by decide
    rcases hcases w with ⟨h, e⟩ | ⟨h, h', e⟩ | ⟨h, e⟩ <;>
      rcases hcases w2 with ⟨g, e2⟩ | ⟨g, g', e2⟩ | ⟨g, e2⟩ <;>
      rw [e, e2] <;> omega

/-- C16 at concrete widths: 767 is mobile, 768 tablet, 1024 desktop, and the rank does
not decrease from 767 to 1024. -/
theorem C16_getDeviceType_classes_witness :
    getDeviceType 767 = "mobile" ∧ getDeviceType 768 = "tablet"
    ∧ getDeviceType 1024 = "desktop"
    ∧ deviceRank (getDeviceType 767) ≤ deviceRank (getDeviceType 1024) :=
  ⟨(C16_getDeviceType_classes 767).1.2 (by decide),
   (C16_getDeviceType_classes 768).2.1.2 ⟨by decide, by decide⟩,
   (C16_getDeviceType_classes 1024).2.2.1.2 (by decide),
   (C16_getDeviceType_classes 767).2.2.2.2 1024 (by decide)⟩

end Main

/-! ## The mobile menu -/

namespace Navigation

theorem run_closed_or_opened (c : MenuCall) (s : MenuState)
    (h : s = closed ∨ s = opened) : c.run s = closed ∨ c.run s = opened := by
  rcases h with rfl | rfl <;> cases c <;> first | exact Or.inl rfl | exact Or.inr rfl

/-- From the closed state every sequence of calls ends closed or open. -/
theorem runCalls_closed_or_opened (cs : List MenuCall) :
    ∀ s, (s = closed ∨ s = opened) → runCalls cs s = closed ∨ runCalls cs s = opened := by
  induction cs with
  | nil => intro s h; exact h
  | cons c cs ih =>
    intro s h
    exact ih _ (run_closed_or_opened c s h)

/-- C15: `openMobileMenu` sets the three flags (hamburger active, overlay active, page
scroll locked), `closeMobileMenu` clears them, and `toggleMobileMenu` closes when the
overlay is active and opens otherwise; hence from the closed state every sequence of
open, close and toggle calls keeps the three flags equal, toggling twice restores
the state, and open and close are each idempotent. -/
theorem C15_mobile_menu_flags (s : MenuState) (cs : List MenuCall) :
    ((openMobileMenu s).hamburgerActive = true ∧ (openMobileMenu s).overlayActive = true
      ∧ (openMobileMenu s).scrollLocked = true)
    ∧ ((closeMobileMenu s).hamburgerActive = false ∧ (closeMobileMenu s).overlayActive = false
      ∧ (closeMobileMenu s).scrollLocked = false)
    ∧ (s.overlayActive = true → toggleMobileMenu s = closeMobileMenu s)
    ∧ (s.overlayActive = false → toggleMobileMenu s = openMobileMenu s)
    ∧ ((runCalls cs closed).hamburgerActive = (runCalls cs closed).overlayActive
      ∧ (runCalls cs closed).overlayActive = (runCalls cs closed).scrollLocked)
    ∧ toggleMobileMenu (toggleMobileMenu (runCalls cs closed)) = runCalls cs closed
    ∧ openMobileMenu (openMobileMenu s) = openMobileMenu s
    ∧ closeMobileMenu (closeMobileMenu s) = closeMobileMenu s := by
  have hreach := runCalls_closed_or_opened cs closed (Or.inl rfl)
  have ho : (openMobileMenu s).scrollLocked = true := by
    simp [openMobileMenu, MenuState.scrollLocked]
  have hc : (closeMobileMenu s).scrollLocked = false := by
    simp [closeMobileMenu, MenuState.scrollLocked]
  refine ⟨⟨rfl, rfl, ho⟩, ⟨rfl, rfl, hc⟩, ?_, ?_, ?_, ?_, rfl, rfl⟩
  · intro h; simp [toggleMobileMenu, h]
  · intro h; simp [toggleMobileMenu, h]
  · rcases hreach with h | h <;> rw [h] <;> exact ⟨rfl, by decide⟩
  · rcases hreach with h | h <;> rw [h] <;> rfl

/-- C15 at concrete calls: from the closed state, open then toggle then toggle leaves
the menu open with all three flags set; toggling an open menu closes it. -/
theorem C15_mobile_menu_flags_witness :
    toggleMobileMenu opened = closeMobileMenu opened
    ∧ toggleMobileMenu closed = openMobileMenu closed
    ∧ toggleMobileMenu (toggleMobileMenu (runCalls
        [MenuCall.openMenu, MenuCall.toggleMenu, MenuCall.toggleMenu] closed))
        = runCalls [MenuCall.openMenu, MenuCall.toggleMenu, MenuCall.toggleMenu] closed :=
  ⟨(C15_mobile_menu_flags opened []).2.2.1 rfl,
   (C15_mobile_menu_flags closed []).2.2.2.1 rfl,
   (C15_mobile_menu_flags closed
      [MenuCall.openMenu, MenuCall.toggleMenu, MenuCall.toggleMenu]).2.2.2.2.2.1⟩

end Navigation
